import Mathlib

/-!
# Verification development for the proxy engine

Shallow embedding of the stub DNS resolver (`net/cidrmatch/dns/dns.go`), the HTTP proxy
front-end and stream forwarder (`net/proxy/http/server/httpserver.go`) and the Shadowsocksr
dialer (`net/proxy/shadowsocksr/client/ssrclient.go`).

Conventions.
* A Go `byte` is a `Nat`; a Go `string` that is inspected byte-wise (the DNS domain) is a
  `List Nat`; strings that are only compared or concatenated are Lean `String`s.
* Every call into the operating system or a library (sockets, the HTTP parser, the plugin
  registries) is an explicit oracle argument; effects are recorded as an event trace.
* A Go run-time panic is an explicit constructor of the result type.
* Where a property turns on what a routine of the Go standard library does with a header
  (`Request.Write`, `Response.Write`, `shouldClose` inside `http.ReadResponse`), that routine
  is modelled after the library, next to the oracle that stands for its result.
-/

namespace Dns

/-! ## Stub DNS resolver: `DNSv4` -/

/-- Result of a call of `DNSv4`: the pair of return values, or a run-time panic. -/
inductive Outcome where
  | ret (domainIP : String) (success : Bool)
  | fault
  deriving DecidableEq, Repr

/-- What the sockets do during one call of `DNSv4`.
`dialOk` : `net.Dial("udp", DNSServer)` returned no error.
`writeOk` : `conn.Write(all)` returned no error (the code discards the result).
`reply` : the bytes `conn.Read(b[:])` stored in the buffer; `n` is their number.
`readOk` : `conn.Read` returned no error (the code discards the error). -/
structure Sockets where
  dialOk : Bool
  writeOk : Bool
  reply : List Nat
  readOk : Bool
  deriving DecidableEq, Repr

/-- The literal `header` of line 60. -/
def header : List Nat := [0x01, 0x02, 0x00, 0x00, 0x00, 0x01, 0x00, 0x00, 0x00, 0x00, 0x00, 0x00]

/-- Go `strings.Split(s, sep)` for a one-byte separator: the maximal pieces of `s` between
occurrences of `sep`; the empty string gives one empty piece. -/
def stringsSplit (sep : Nat) : List Nat → List (List Nat)
  | [] => [[]]
  | c :: cs =>
    if c = sep then [] :: stringsSplit sep cs
    else
      match stringsSplit sep cs with
      | [] => [[c]]
      | l :: ls => (c :: l) :: ls

/-- The loop of lines 62-66: for each label append `byte(len(label))` and the label's bytes. -/
def domainSet (domain : List Nat) : List Nat :=
  (stringsSplit 46 domain).foldl (fun acc label => (acc ++ [label.length % 256]) ++ label) []

/-- The datagram `all` of lines 60-74. -/
def all (domain : List Nat) : List Nat :=
  header ++ (domainSet domain ++ [0x00, 0x00, 0x01, 0x00, 0x01])

/-- Go `strconv.Itoa(int(x))`: the decimal rendering of a byte. -/
def itoa (x : Nat) : String := Nat.repr x

/-- The array `b` after `conn.Read(b[:])` stored `reply` in the zeroed 1024-byte array. -/
def buffer (reply : List Nat) : List Nat :=
  (reply ++ List.replicate 1024 0).take 1024

/-- Go array indexing `b[i]` with a signed index: `none` is the index-out-of-range panic. -/
def index (b : List Nat) (i : Int) : Option Nat :=
  if i < 0 then none else b.get? i.toNat

/-- The function `DNSv4` (lines 11-100): the datagrams written to the socket and the
outcome. -/
def DNSv4 (io : Sockets) (domain : List Nat) : List (List Nat) × Outcome :=
  let all := all domain
  if !io.dialOk then ([], Outcome.ret "" false)
  else
    let b := buffer io.reply
    let n : Int := io.reply.length
    match index b 3 with
    | none => ([all], Outcome.fault)
    | some b3 =>
      if b3 &&& 1 ≠ 0 then ([all], Outcome.ret "" false)
      else
        match index b (n - 4), index b (n - 3), index b (n - 2), index b (n - 1) with
        | some d1, some d2, some d3, some d4 =>
          ([all], Outcome.ret (itoa d1 ++ "." ++ itoa d2 ++ "." ++ itoa d3 ++ "." ++ itoa d4) true)
        | _, _, _, _ => ([all], Outcome.fault)

/-- QR bit of a DNS message: top bit of header byte 2 (layout of lines 13-24). -/
def flagQR (msg : List Nat) : Nat := msg.getD 2 0 / 128 % 2

/-- OPCODE field of a DNS message: four bits of header byte 2 below QR. -/
def flagOpcode (msg : List Nat) : Nat := msg.getD 2 0 / 8 % 16

/-- RD bit of a DNS message: low bit of header byte 2. -/
def flagRD (msg : List Nat) : Nat := msg.getD 2 0 % 2

/-- QDCOUNT of a DNS message: header bytes 4 and 5, big endian. -/
def qdcount (msg : List Nat) : Nat := msg.getD 4 0 * 256 + msg.getD 5 0

end Dns

namespace Http

/-! ## HTTP proxy front-end: `httpHandleClientRequest`, `pipe` -/

/-- A Go `error` value, by its message. -/
abbrev Err := String

/-- Result of a library call that returns a value or an error. -/
inductive Res (α : Type) where
  | ok (v : α)
  | error (e : Err)
  deriving DecidableEq, Repr

/-- Go `http.Header`, a map from header name to its values, as an association list in which
the first entry of a name is the map's entry. -/
structure Header where
  entries : List (String × List String)
  deriving DecidableEq, Repr

/-- The map entry `h[key]`. -/
def Header.values (h : Header) (key : String) : Option (List String) :=
  h.entries.lookup key

/-- Go `Header.Get`: the first value of `key`, or the empty string. The names the handler
passes are already in canonical form, so canonicalisation is the identity on them. -/
def Header.Get (h : Header) (key : String) : String :=
  match h.values key with
  | some (v :: _) => v
  | _ => ""

/-- Go `Header.Del`: remove the entry of `key`. -/
def Header.Del (h : Header) (key : String) : Header :=
  ⟨h.entries.filter (fun kv => kv.1 != key)⟩

/-- Go `Header.Set`: replace the entry of `key` by the single value `value`. -/
def Header.Set (h : Header) (key value : String) : Header :=
  ⟨(key, [value]) :: (h.Del key).entries⟩

/-- The fields of `http.Request` the handler reads or writes, and the rest of the message
(path, body) that it passes through. -/
structure Request where
  method : String
  host : String
  urlScheme : String
  urlHost : String
  urlPath : String
  header : Header
  body : List Nat
  deriving DecidableEq, Repr

/-- The fields of `http.Response` the handler reads or writes, and the rest of the
message. -/
structure Response where
  status : Nat
  header : Header
  body : List Nat
  deriving DecidableEq, Repr

/-- Observable steps of one run of the handler, in program order. -/
inductive Event where
  /-- The call `http.ReadRequest(inBoundReader)` and what it returned. -/
  | readRequest (r : Res Request)
  /-- The call `getOutBound()`; `ok` says that `server` is not nil afterwards. -/
  | dial (host : String) (ok : Bool)
  /-- The call `client.Write(bytes)`; `ok` says that it returned no error. -/
  | clientWrite (bytes : String) (ok : Bool)
  /-- The call `forward(server, client)`. -/
  | forward
  /-- The call `req.Write(server)` with the request as it is at that point. -/
  | reqWrite (r : Request) (ok : Bool)
  /-- The call `http.ReadResponse(outboundReader, req)` and what it returned. -/
  | readResponse (r : Res Response)
  /-- The call `resp.Write(client)` with the response as it is at that point. -/
  | respWrite (p : Response) (ok : Bool)
  /-- The deferred `server.Close()`. -/
  | serverClose
  /-- The deferred `client.Close()` of the accepting goroutine. -/
  | clientClose
  deriving DecidableEq, Repr

/-- What the outbound side does during one iteration of the plain-HTTP loop: the error of
`req.Write(server)`, the result of `http.ReadResponse`, the error of `resp.Write(client)`. -/
structure Exchange where
  reqWrite : Option Err
  resp : Res Response
  respWrite : Option Err

/-- What the environment does during one run of the handler.
`dial host` : `server` is not nil after `getOutBound()` (through `forwardFunc` or `net.Dial`).
`clientWrite` : the error of `client.Write` on the CONNECT path.
`exchange i` : the outbound side in iteration `i` of the plain-HTTP loop. -/
structure Env where
  dial : String → Bool
  clientWrite : Option Err
  exchange : Nat → Exchange

/-- The literal written to the client on the CONNECT path (line 154). -/
def established : String := "HTTP/1.1 200 Connection established\r\n\r\n"

/-- The error `io.EOF`, returned by a read when its source is exhausted. -/
def EOF : Err := "EOF"

/-- Lines 161-170: the request as rewritten before `req.Write(server)`. -/
def prepareRequest (req : Request) : Request :=
  let h0 := req.header
  let h1 := if h0.Get "Proxy-Connection" ≠ "" then h0.Set "Connection" (h0.Get "Proxy-Connection")
    else h0
  let h2 := h1.Del "Proxy-Connection"
  let h3 := h2.Del "Proxy-Authenticate"
  let h4 := h3.Del "Proxy-Authorization"
  { req with urlHost := "", urlScheme := "", header := h4 }

/-- Lines 183-185: the response as rewritten before `resp.Write(client)`. -/
def stripResponse (resp : Response) : Response :=
  let h1 := resp.header.Del "Proxy-Connection"
  let h2 := h1.Del "Proxy-Authenticate"
  let h3 := h2.Del "Proxy-Authorization"
  { resp with header := h3 }

/-- Lines 160-200, one iteration of the loop up to its two `break` tests: the events, and
`some r` when the handler leaves the loop here (with return value `r`) or `none` when it
goes on to read the next request. -/
def relayOnce (x : Exchange) (req : Request) : List Event × Option (Option Err) :=
  let req1 := prepareRequest req
  match x.reqWrite with
  | some e => ([Event.reqWrite req1 false], some (some e))
  | none =>
    match x.resp with
    | Res.error e => ([Event.reqWrite req1 true, Event.readResponse (Res.error e)], some (some e))
    | Res.ok resp =>
      let resp1 := stripResponse resp
      match x.respWrite with
      | some e =>
        ([Event.reqWrite req1 true, Event.readResponse (Res.ok resp), Event.respWrite resp1 false],
          some (some e))
      | none =>
        ([Event.reqWrite req1 true, Event.readResponse (Res.ok resp), Event.respWrite resp1 true],
          if resp1.header.Get "Connection" = "close" then some none
          else if req1.header.Get "Connection" ≠ "Keep-Alive"
              ∧ req1.header.Get "Connection" ≠ "keep-alive" then some none
          else none)

/-- Lines 159-208, the plain-HTTP loop from iteration `i` on, with `req` the current request
and `rest` what the following calls of `http.ReadRequest` return (after them: `io.EOF`). -/
def plainLoop (host : String) (io : Nat → Exchange) :
    Nat → Request → List (Res Request) → List Event × Option Err
  | i, req, rest =>
    match relayOnce (io i) req, rest with
    | (evs, some r), _ => (evs, r)
    | (evs, none), [] => (evs ++ [Event.readRequest (Res.error EOF)], some EOF)
    | (evs, none), Res.error e :: _ => (evs ++ [Event.readRequest (Res.error e)], some e)
    | (evs, none), Res.ok next :: rest1 =>
      if next.host ≠ host then (evs ++ [Event.readRequest (Res.ok next)], none)
      else
        let t := plainLoop host io (i + 1) next rest1
        (evs ++ Event.readRequest (Res.ok next) :: t.1, t.2)

/-- The method `httpHandleClientRequest` (lines 124-211): the events and the returned error.
`reads` is what the successive calls of `http.ReadRequest` on the client return. -/
def httpHandleClientRequest (env : Env) (reads : List (Res Request)) : List Event × Option Err :=
  match reads with
  | [] => ([Event.readRequest (Res.error EOF)], some EOF)
  | Res.error e :: _ => ([Event.readRequest (Res.error e)], some e)
  | Res.ok req :: rest =>
    let host := req.host
    if !env.dial req.host then ([Event.readRequest (Res.ok req), Event.dial req.host false], none)
    else if req.method = "CONNECT" then
      match env.clientWrite with
      | some e =>
        ([Event.readRequest (Res.ok req), Event.dial req.host true,
          Event.clientWrite established false, Event.serverClose], some e)
      | none =>
        ([Event.readRequest (Res.ok req), Event.dial req.host true,
          Event.clientWrite established true, Event.forward, Event.serverClose], none)
    else
      let t := plainLoop host env.exchange 0 req rest
      ([Event.readRequest (Res.ok req), Event.dial req.host true] ++ t.1 ++ [Event.serverClose],
        t.2)

/-- The method `httpProxyAcceptARequest` (lines 80-100) when `AcceptTCP` returns a client:
the goroutine runs the handler, then the deferred `client.Close()`. The second component is
the handler's error, which the goroutine only logs. -/
def httpProxyAcceptARequest (env : Env) (reads : List (Res Request)) : List Event × Option Err :=
  let t := httpHandleClientRequest env reads
  (t.1 ++ [Event.clientClose], t.2)

/-- The header map `out` is `inp` without the three proxy headers: they are absent from
`out`, and every other name, `Connection` excepted when `exceptConnection` is set, has the
same entry in both. -/
def StrippedFrom (exceptConnection : Bool) (out inp : Header) : Prop :=
  out.values "Proxy-Connection" = none ∧ out.values "Proxy-Authenticate" = none
  ∧ out.values "Proxy-Authorization" = none
  ∧ ∀ k : String, k ≠ "Proxy-Connection" → k ≠ "Proxy-Authenticate" →
      k ≠ "Proxy-Authorization" → (exceptConnection = true → k ≠ "Connection") →
      out.values k = inp.values k

/-- Whether an event writes to the client connection. -/
def Event.writesClient : Event → Bool
  | Event.clientWrite _ _ => true
  | Event.respWrite _ _ => true
  | _ => false

/-- Whether an event writes to the outbound connection. -/
def Event.writesServer : Event → Bool
  | Event.reqWrite _ _ => true
  | _ => false

/-- Whether an event is the call of `forward`. -/
def Event.isForward : Event → Bool
  | Event.forward => true
  | _ => false

/-- The events of a trace that precede the first call of `forward`. -/
def beforeForward (tr : List Event) : List Event :=
  tr.takeWhile (fun e => !e.isForward)

/-- Whether an event is a call of `http.ReadRequest`. -/
def Event.isReadRequest : Event → Bool
  | Event.readRequest _ => true
  | _ => false

/-- One result of `src.Read(buf)`: the `n = data.length` bytes stored in `buf[0:n]` and the
error. -/
structure ReadResult where
  data : List Nat
  err : Option Err
  deriving DecidableEq, Repr

/-- The loop of `pipe` (lines 224-235) with buffer `buf`, after `k` writes: the slices
passed to `dst.Write` (each with whether the write succeeded) and the value sent on
`closeSig`. `reads` is what the successive calls of `src.Read` return (after them: zero bytes
and `io.EOF`); `writeErr k` is the error of write number `k`. -/
def pipeLoop (writeErr : Nat → Option Err) :
    List Nat → Nat → List ReadResult → List (List Nat × Bool) × Option Err
  | _, _, [] => ([], some EOF)
  | buf, k, r :: rs =>
    let n := r.data.length
    let buf1 := r.data ++ buf.drop n
    if n = 0 ∨ r.err ≠ none then ([], r.err)
    else
      match writeErr k with
      | some e => ([(buf1.take n, false)], some e)
      | none =>
        let t := pipeLoop writeErr buf1 (k + 1) rs
        ((buf1.take n, true) :: t.1, t.2)

/-- The function `pipe` (lines 222-236): the loop started with the fresh 32 KiB buffer. -/
def pipe (writeErr : Nat → Option Err) (reads : List ReadResult) :
    List (List Nat × Bool) × Option Err :=
  pipeLoop writeErr (List.replicate (0x400 * 32) 0) 0 reads

/-- All bytes that reached `dst`: the slices of the successful writes, in order. -/
def written (ws : List (List Nat × Bool)) : List Nat :=
  (ws.filter (fun w => w.2)).flatMap (fun w => w.1)

/-- The reads `pipe` performs: the results up to and including the first that ends the
loop (zero bytes or an error). -/
def readsUsed : List ReadResult → List ReadResult
  | [] => []
  | r :: rs => if r.data.length = 0 ∨ r.err ≠ none then [r] else r :: readsUsed rs

/-- The reads of `pipe` that precede the one that ends the loop. -/
def readsBeforeEnd (rs : List ReadResult) : List ReadResult :=
  rs.takeWhile (fun r => !(decide (r.data.length = 0 ∨ r.err ≠ none)))

/-- All bytes delivered by a sequence of reads, in order. -/
def delivered (rs : List ReadResult) : List Nat :=
  rs.flatMap (fun r => r.data)

end Http

namespace Ssr

/-! ## Shadowsocksr dialer: `NewShadowsocksrClient`, `Conn`, `getTCPConn`, `tcpDial` -/

/-- A Go `error` value, by its message. -/
abbrev Err := String

/-- The struct `Shadowsocksr` (lines 18-32). An `interface{}` field is `none` when nil and
`some id` when it holds the object `id`; `cache` lists the addresses by their `String()`. -/
structure Shadowsocksr where
  host : String
  port : String
  encryptMethod : String
  encryptPassword : String
  obfs : String
  obfsParam : String
  obfsData : Option Nat
  protocol : String
  protocolParam : String
  protocolData : Option Nat
  cache : List String
  deriving DecidableEq, Repr

/-- The struct `ssr.ServerInfo` as filled in lines 77-82 and 90-95. -/
structure ServerInfo where
  host : String
  port : Nat
  tcpMss : Nat
  param : String
  deriving DecidableEq, Repr

/-- Observable steps of one call of `Conn`, in program order. -/
inductive Event where
  /-- The call `socks5client.ParseAddr(addr)`. -/
  | parseAddr (addr : String)
  /-- The call `net.Dial("tcp", address)`; `ok` says that it returned a connection. -/
  | connect (address : String) (ok : Bool)
  /-- The call `net.LookupIP(host)`. -/
  | lookupIP (host : String)
  /-- The call `streamCipher.NewStreamCipher(method, password)`; `ok` says that it returned no error. -/
  | newStreamCipher (method password : String) (ok : Bool)
  /-- The call `obfs.NewObfs(name)`; `ok` says that the result is not nil. -/
  | newObfs (name : String) (ok : Bool)
  /-- The call `ssrconn.IObfs.SetServerInfo(info)`. -/
  | obfsSetServerInfo (info : ServerInfo)
  /-- The call `Protocol.NewProtocol(name)`; `ok` says that the result is not nil. -/
  | newProtocol (name : String) (ok : Bool)
  /-- The call `ssrconn.IProtocol.SetServerInfo(info)`. -/
  | protocolSetServerInfo (info : ServerInfo)
  /-- The call `ssrconn.IObfs.GetData()`. -/
  | obfsGetData
  /-- The call `ssrconn.IObfs.SetData(d)`. -/
  | obfsSetData (d : Option Nat)
  /-- The call `ssrconn.IProtocol.GetData()`. -/
  | protocolGetData
  /-- The call `ssrconn.IProtocol.SetData(d)`. -/
  | protocolSetData (d : Option Nat)
  /-- The call `ssrconn.Write(target)`; `ok` says that it returned no error. -/
  | write (target : List Nat) (ok : Bool)
  /-- The call `ssrconn.Close()`, which closes the TCP connection `conn`. -/
  | close (conn : Nat)
  deriving DecidableEq, Repr

/-- Whether an event is a network operation: hostname lookup, TCP connect, write to or close
of the connection. -/
def Event.isNetwork : Event → Bool
  | Event.connect _ _ => true
  | Event.lookupIP _ => true
  | Event.write _ _ => true
  | Event.close _ => true
  | _ => false

/-- What the libraries and the network do during one call of `Conn`.
`parseAddr` : `socks5client.ParseAddr`.
`dial k address` : the result of `net.Dial("tcp", address)` when `k` connects were attempted
before it in this call; `some c` is the connection `c`.
`lookupIP host` : the addresses returned by `net.LookupIP(host)` (its error is discarded).
`newStreamCipher method password` : the error of `streamCipher.NewStreamCipher`.
`remoteAddr c` : `RemoteAddr().String()` of connection `c`, `none` when `RemoteAddr()` is nil.
`atoi` : the value `strconv.Atoi` returns (its error is discarded).
`newObfs name`, `newProtocol name` : whether the registry knows the plugin.
`obfsGetData`, `protocolGetData` : what the plugin's `GetData()` returns.
`write` : the error of `ssrconn.Write(target)`. -/
structure World where
  parseAddr : String → Except Err (List Nat)
  dial : Nat → String → Option Nat
  lookupIP : String → List String
  newStreamCipher : String → String → Option Err
  remoteAddr : Nat → Option String
  atoi : String → Int
  newObfs : String → Bool
  newProtocol : String → Bool
  obfsGetData : Option Nat
  protocolGetData : Option Nat
  write : Option Err

/-- Result of a call of `Conn`: the wrapped connection, an error, or a run-time panic. -/
inductive ConnResult where
  | conn (c : Nat)
  | error (e : Err)
  | fault
  deriving DecidableEq, Repr

/-- The function `NewShadowsocksrClient` (lines 34-47); `authData` is the object made by
`new(Protocol.AuthData)`. The returned error is always nil. -/
def NewShadowsocksrClient (authData : Nat)
    (host port method password obfs obfsParam protocol protocolParam : String) :
    Shadowsocksr × Option Err :=
  ({ host := host, port := port, encryptMethod := method, encryptPassword := password,
     obfs := obfs, obfsParam := obfsParam, obfsData := none, protocol := protocol,
     protocolParam := protocolParam, protocolData := some authData, cache := [] }, none)

/-- Go `net.JoinHostPort`: a host that contains a colon is put in brackets. -/
def joinHostPort (host port : String) : String :=
  if ':' ∈ host.data then "[" ++ host ++ "]:" ++ port else host ++ ":" ++ port

/-- Go `strings.Split(s, ":")` on the characters of `s`. -/
def splitColon : List Char → List (List Char)
  | [] => [[]]
  | c :: cs =>
    if c = ':' then [] :: splitColon cs
    else
      match splitColon cs with
      | [] => [[c]]
      | l :: ls => (c :: l) :: ls

/-- The method `tcpDial` (lines 124-133) over the addresses `cache`, after `k` earlier
connects: the connects attempted and the connection, `none` being the error
`shadowsocks dial failed`. -/
def tcpDial (w : World) (port : String) : List String → Nat → List Event × Option Nat
  | [], _ => ([], none)
  | ip :: ips, k =>
    match w.dial k (joinHostPort ip port) with
    | some c => ([Event.connect (joinHostPort ip port) true], some c)
    | none =>
      let t := tcpDial w port ips (k + 1)
      (Event.connect (joinHostPort ip port) false :: t.1, t.2)

/-- The method `getTCPConn` (lines 115-122): the dialer afterwards, the events and the
connection, `none` being the error of the second `tcpDial`. -/
def getTCPConn (w : World) (s : Shadowsocksr) : Shadowsocksr × List Event × Option Nat :=
  let t1 := tcpDial w s.port s.cache 0
  match t1.2 with
  | some c => (s, t1.1, some c)
  | none =>
    let s1 := { s with cache := w.lookupIP s.host }
    let t2 := tcpDial w s1.port s1.cache t1.1.length
    (s1, t1.1 ++ Event.lookupIP s.host :: t2.1, t2.2)

/-- Lines 98-112 of `Conn`: session data, the write of the target address and the return. -/
def attachAndWrite (w : World) (s : Shadowsocksr) (c : Nat) (target : List Nat) :
    Shadowsocksr × List Event × ConnResult :=
  let (s1, ev1) :=
    match s.obfsData with
    | none => ({ s with obfsData := w.obfsGetData }, [Event.obfsGetData])
    | some _ => (s, [])
  let ev2 := ev1 ++ [Event.obfsSetData s1.obfsData]
  let (s2, ev3) :=
    match s1.protocolData with
    | none => ({ s1 with protocolData := w.protocolGetData }, ev2 ++ [Event.protocolGetData])
    | some _ => (s1, ev2)
  let ev4 := ev3 ++ [Event.protocolSetData s2.protocolData]
  match w.write with
  | some e => (s2, ev4 ++ [Event.write target false, Event.close c], ConnResult.error e)
  | none => (s2, ev4 ++ [Event.write target true], ConnResult.conn c)

/-- Lines 59-112 of `Conn`, after `getTCPConn` returned the connection `c`. -/
def wrap (w : World) (s : Shadowsocksr) (c : Nat) (target : List Nat) :
    Shadowsocksr × List Event × ConnResult :=
  match w.newStreamCipher s.encryptMethod s.encryptPassword with
  | some e => (s, [Event.newStreamCipher s.encryptMethod s.encryptPassword false],
      ConnResult.error e)
  | none =>
    let ev0 := [Event.newStreamCipher s.encryptMethod s.encryptPassword true]
    match w.remoteAddr c with
    | none => (s, ev0, ConnResult.error "[ssr] nil connection")
    | some remote =>
      let rs := splitColon remote.data
      match rs.get? 1 with
      | none => (s, ev0, ConnResult.fault)
      | some rs1 =>
        let port := w.atoi (String.mk rs1)
        if !w.newObfs s.obfs then
          (s, ev0 ++ [Event.newObfs s.obfs false],
            ConnResult.error ("[ssr] unsupported obfs type: " ++ s.obfs))
        else
          let obfsServerInfo : ServerInfo :=
            { host := String.mk (rs.headD []), port := (port % 65536).toNat, tcpMss := 1460,
              param := s.obfsParam }
          let ev1 := ev0 ++ [Event.newObfs s.obfs true, Event.obfsSetServerInfo obfsServerInfo]
          if !w.newProtocol s.protocol then
            (s, ev1 ++ [Event.newProtocol s.protocol false],
              ConnResult.error ("[ssr] unsupported protocol type: " ++ s.protocol))
          else
            let protocolServerInfo : ServerInfo :=
              { host := String.mk (rs.headD []), port := (port % 65536).toNat, tcpMss := 1460,
                param := s.protocolParam }
            let ev2 := ev1 ++ [Event.newProtocol s.protocol true,
              Event.protocolSetServerInfo protocolServerInfo]
            let t := attachAndWrite w s c target
            (t.1, ev2 ++ t.2.1, t.2.2)

/-- The method `Conn` (lines 49-113): the dialer afterwards, the events and the result. -/
def Conn (w : World) (s : Shadowsocksr) (addr : String) :
    Shadowsocksr × List Event × ConnResult :=
  match w.parseAddr addr with
  | Except.error e => (s, [Event.parseAddr addr], ConnResult.error e)
  | Except.ok target =>
    let g := getTCPConn w s
    match g.2.2 with
    | none =>
      (g.1, Event.parseAddr addr :: g.2.1,
        ConnResult.error ("[ssr] dial to " ++ s.host ++ " error: shadowsocks dial failed"))
    | some c =>
      let t := wrap w g.1 c target
      (t.1, Event.parseAddr addr :: (g.2.1 ++ t.2.1), t.2.2)

/-- A world for examples: the server name resolves to `192.0.2.1`, every connect succeeds
with connection 7, the cipher registry knows `aes-256-cfb` only, the plugin registries know
`plain` and `origin`, and the write succeeds. -/
def sampleWorld : World :=
  { parseAddr := fun _ => Except.ok [1, 93, 184, 216, 34, 1, 187]
    dial := fun _ _ => some 7
    lookupIP := fun _ => ["192.0.2.1"]
    newStreamCipher := fun method _ =>
      if method = "aes-256-cfb" then none else some ("unsupported cipher: " ++ method)
    remoteAddr := fun _ => some "192.0.2.1:8388"
    atoi := fun _ => 8388
    newObfs := fun name => name == "plain"
    newProtocol := fun name => name == "origin"
    obfsGetData := some 2
    protocolGetData := some 3
    write := none }

/-- A world like `sampleWorld` whose obfuscation plugin keeps no session state: its
`GetData()` returns nil. -/
def statelessWorld : World :=
  { sampleWorld with obfsGetData := none }

/-- Successive calls of `Conn` on one dialer instance, each in its own world: the dialer
after the last call. -/
def runConns (s : Shadowsocksr) : List (World × String) → Shadowsocksr
  | [] => s
  | call :: calls => runConns (Conn call.1 s call.2).1 calls

/-- Whether an event is a call of a plugin's `GetData` or `SetData`. -/
def Event.isSessionData : Event → Bool
  | Event.obfsGetData => true
  | Event.obfsSetData _ => true
  | Event.protocolGetData => true
  | Event.protocolSetData _ => true
  | _ => false

/-- Whether an event is the close of a TCP connection. -/
def Event.isClose : Event → Bool
  | Event.close _ => true
  | _ => false

/-- Whether an event is a call of `net.LookupIP`. -/
def Event.isLookup : Event → Bool
  | Event.lookupIP _ => true
  | _ => false

/-- One pass of `tcpDial` over `cache`, after `k` earlier connects, with the given events
and result: either every cached address was tried in cache order, each connect failed and
the result is the failure; or the addresses before some cached address failed in cache
order, the connect to that address gave the connection returned, and no later address was
tried. -/
def IsPass (w : World) (port : String) (k : Nat) (cache : List String)
    (events : List Event) (result : Option Nat) : Prop :=
  (result = none
    ∧ events = cache.map (fun a => Event.connect (joinHostPort a port) false)
    ∧ ∀ i a, cache.get? i = some a → w.dial (k + i) (joinHostPort a port) = none)
  ∨ (∃ c pre ip post, result = some c ∧ cache = pre ++ ip :: post
    ∧ events = pre.map (fun a => Event.connect (joinHostPort a port) false)
        ++ [Event.connect (joinHostPort ip port) true]
    ∧ (∀ i a, pre.get? i = some a → w.dial (k + i) (joinHostPort a port) = none)
    ∧ w.dial (k + pre.length) (joinHostPort ip port) = some c)

end Ssr

namespace Http

/-! ## The library serialisers and parser around the plain-HTTP loop -/

/-- The request an event hands to `req.Write(server)`, if it is such a call. -/
def Event.asReqWrite : Event → Option Request
  | Event.reqWrite r _ => some r
  | _ => none

/-- The request an event got from `http.ReadRequest`, if it is such a call that succeeded. -/
def Event.asRequestRead : Event → Option Request
  | Event.readRequest (Res.ok r) => some r
  | _ => none

/-- The response an event hands to `resp.Write(client)`, if it is such a call. -/
def Event.asRespWrite : Event → Option Response
  | Event.respWrite p _ => some p
  | _ => none

/-- The response an event got from `http.ReadResponse`, if it is such a call that
succeeded. -/
def Event.asResponseRead : Event → Option Response
  | Event.readResponse (Res.ok p) => some p
  | _ => none

/-- The requests handed to `req.Write(server)` during a run, in order. -/
def outboundWrites (tr : List Event) : List Request := tr.filterMap Event.asReqWrite

/-- The requests `http.ReadRequest` returned during a run, in order. -/
def requestsRead (tr : List Event) : List Request := tr.filterMap Event.asRequestRead

/-- The responses handed to `resp.Write(client)` during a run, in order. -/
def clientResponses (tr : List Event) : List Response := tr.filterMap Event.asRespWrite

/-- The responses `http.ReadResponse` returned during a run, in order. -/
def responsesRead (tr : List Event) : List Response := tr.filterMap Event.asResponseRead

/-- The constant `defaultUserAgent` of Go `net/http`. -/
def defaultUserAgent : String := "Go-http-client/1.1"

/-- Go `Request.Write`, header part: the values of the header lines named `k` that it puts
on the wire for the request `r`, for header values as the parser delivers them. `none`
stands for the names whose lines the serialiser derives from other fields of the message
(`Host` from `r.Host`; `Content-Length`, `Transfer-Encoding`, `Trailer` and an added
`Connection: close` from the transfer state), which are not modelled. `User-Agent` is the
map's first value when the map has the name (no line when that value is empty) and
`defaultUserAgent` when it has not. Every other name is written with the map's values. -/
def requestWire (r : Request) (k : String) : Option (List String) :=
  if k = "Host" ∨ k = "Content-Length" ∨ k = "Transfer-Encoding" ∨ k = "Trailer"
      ∨ k = "Connection" then none
  else if k = "User-Agent" then
    match r.header.values "User-Agent" with
    | none => some [defaultUserAgent]
    | some _ =>
      if r.header.Get "User-Agent" = "" then some [] else some [r.header.Get "User-Agent"]
  else some ((r.header.values k).getD [])

/-- Go `Response.Write`, header part: the values of the header lines named `k` that it puts
on the wire for the response `p`. `none` stands for the names whose lines the serialiser
derives from the transfer state (`Content-Length`, `Transfer-Encoding`, `Trailer` and an
added `Connection: close`), which are not modelled. Every other name is written with the
map's values. -/
def responseWire (p : Response) (k : String) : Option (List String) :=
  if k = "Content-Length" ∨ k = "Transfer-Encoding" ∨ k = "Trailer" ∨ k = "Connection" then
    none
  else some ((p.header.values k).getD [])

/-- A response as the origin server sent it: protocol version, status, header lines by
canonical name, body. -/
structure SentResponse where
  protoMajor : Nat
  protoMinor : Nat
  status : Nat
  header : Header
  body : List Nat
  deriving DecidableEq, Repr

/-- Go `lowerASCII` of `httpguts`. -/
def lowerASCII (c : Char) : Char :=
  if 'A' ≤ c ∧ c ≤ 'Z' then Char.ofNat (c.toNat + 32) else c

/-- Go `trimOWS` of `httpguts`, left part: drop leading blanks and tabs. -/
def trimLeft : List Char → List Char
  | [] => []
  | c :: cs => if c = ' ' ∨ c = '\t' then trimLeft cs else c :: cs

/-- Go `trimOWS` of `httpguts`: drop blanks and tabs at both ends. -/
def trimOWS (v : List Char) : List Char :=
  (trimLeft (trimLeft v).reverse).reverse

/-- Go `tokenEqual` of `httpguts`: equal length, only ASCII in the first, and equal up to
ASCII case. -/
def tokenEqual : List Char → List Char → Bool
  | [], [] => true
  | a :: as, b :: bs => a.toNat < 128 && lowerASCII a == lowerASCII b && tokenEqual as bs
  | _, _ => false

/-- The pieces of a header value between commas. -/
def splitComma : List Char → List (List Char)
  | [] => [[]]
  | c :: cs =>
    if c = ',' then [] :: splitComma cs
    else
      match splitComma cs with
      | [] => [[c]]
      | l :: ls => (c :: l) :: ls

/-- Go `httpguts.HeaderValuesContainsToken`: some value has, among its comma-separated
elements, one that equals `token` up to blanks and ASCII case. -/
def headerValuesContainsToken (values : List String) (token : String) : Bool :=
  values.any (fun v => (splitComma v.data).any (fun t => tokenEqual (trimOWS t) token.data))

/-- Go `shouldClose` of `net/http` (transfer.go): whether the connection closes after the
message, and the header map afterwards. For a message of HTTP/1.1 or later that carries the
token `close`, the `Connection` entry is deleted when `removeCloseHeader` is set. -/
def shouldClose (major minor : Nat) (header : Header) (removeCloseHeader : Bool) :
    Bool × Header :=
  if major < 1 then (true, header)
  else
    let conv := (header.values "Connection").getD []
    let hasClose := headerValuesContainsToken conv "close"
    if major = 1 ∧ minor = 0 then
      (hasClose || !headerValuesContainsToken conv "keep-alive", header)
    else if hasClose && removeCloseHeader then (hasClose, header.Del "Connection")
    else (hasClose, header)

/-- Go `http.ReadResponse` on a well-formed response, as far as the `Connection` header
goes: it calls `shouldClose` with `removeCloseHeader` set and returns the response with the
header map that call leaves. -/
def readResponse (sent : SentResponse) : Response :=
  { status := sent.status
    header := (shouldClose sent.protoMajor sent.protoMinor sent.header true).2
    body := sent.body }

/-- Whether a response as sent declares `Connection: close`. -/
def declaresClose (sent : SentResponse) : Bool :=
  headerValuesContainsToken ((sent.header.values "Connection").getD []) "close"

/-- The outbound side for examples: every exchange succeeds and the origin server sends
`sent` each time. -/
def originSends (sent : SentResponse) : Nat → Exchange :=
  fun _ => { reqWrite := none, resp := Res.ok (readResponse sent), respWrite := none }

end Http

/-! # Theorems -/

namespace Dns

theorem buffer_get (reply : List Nat) (i : Nat) (hi : i < reply.length)
    (hl : reply.length ≤ 1024) : index (buffer reply) (i : Int) = reply.get? i := by
  have h0 : ¬ ((i : Int) < 0) := by omega
  simp only [index, h0, if_false, Int.toNat_ofNat, buffer]
  rw [List.get?_eq_getElem?, List.get?_eq_getElem?, List.getElem?_take_of_lt (by omega),
    List.getElem?_append_left hi]

theorem land_one (x : Nat) : x &&& 1 = x % 2 := Nat.and_one_is_mod x

theorem foldl_labels (ls : List (List Nat)) (init : List Nat) :
    ls.foldl (fun acc label => (acc ++ [label.length % 256]) ++ label) init
      = init ++ ls.flatMap (fun label => (label.length % 256) :: label) := by
  induction ls generalizing init with
  | nil => simp
  | cons l ls ih =>
    rw [List.foldl_cons, ih, List.flatMap_cons]
    simp [List.append_assoc]

theorem stringsSplit_ne_nil (sep : Nat) (s : List Nat) : stringsSplit sep s ≠ [] := by
  cases s with
  | nil => simp [stringsSplit]
  | cons c cs =>
    simp only [stringsSplit]
    split
    · simp
    · split <;> simp

theorem labels_length (sep : Nat) (s : List Nat) :
    ((stringsSplit sep s).flatMap (fun label => (label.length % 256) :: label)).length
      = s.length + 1 := by
  induction s with
  | nil => simp [stringsSplit]
  | cons c cs ih =>
    simp only [stringsSplit]
    split
    · simp [List.flatMap_cons, ih]
    · cases h : stringsSplit sep cs with
      | nil => exact absurd h (stringsSplit_ne_nil sep cs)
      | cons l ls =>
        rw [h] at ih
        simp only [List.flatMap_cons, List.length_append, List.length_cons] at ih ⊢
        omega

theorem stringsSplit_join (sep : Nat) (s : List Nat) :
    List.intercalate [sep] (stringsSplit sep s) = s := by
  induction s with
  | nil => simp [stringsSplit, List.intercalate]
  | cons c cs ih =>
    simp only [stringsSplit]
    split
    · rename_i h
      cases hs : stringsSplit sep cs with
      | nil => exact absurd hs (stringsSplit_ne_nil sep cs)
      | cons l ls =>
        rw [hs] at ih
        simp only [List.intercalate, List.intersperse, List.flatten_cons, List.nil_append,
          List.singleton_append] at ih ⊢
        rw [ih, h]
    · cases hs : stringsSplit sep cs with
      | nil => exact absurd hs (stringsSplit_ne_nil sep cs)
      | cons l ls =>
        rw [hs] at ih
        cases ls with
        | nil =>
          simp only [List.intercalate, List.intersperse, List.flatten_cons, List.flatten_nil,
            List.append_nil] at ih ⊢
          rw [ih]
        | cons l2 ls2 =>
          simp only [List.intercalate, List.intersperse, List.flatten_cons, List.cons_append] at ih ⊢
          rw [ih]

theorem stringsSplit_no_sep (sep : Nat) (s : List Nat) :
    ∀ label ∈ stringsSplit sep s, sep ∉ label := by
  induction s with
  | nil => simp [stringsSplit]
  | cons c cs ih =>
    simp only [stringsSplit]
    split
    · intro label hl
      rcases List.mem_cons.mp hl with h | h
      · simp [h]
      · exact ih label h
    · rename_i hc
      cases hs : stringsSplit sep cs with
      | nil => exact absurd hs (stringsSplit_ne_nil sep cs)
      | cons l ls =>
        rw [hs] at ih
        intro label hl
        rcases List.mem_cons.mp hl with h | h
        · subst h
          intro hmem
          rcases List.mem_cons.mp hmem with h1 | h1
          · exact hc h1.symm
          · exact ih l (List.mem_cons_self _ _) h1
        · exact ih label (List.mem_cons_of_mem _ h)

/-- C1. Reply decoding: when the dial succeeds and the reply datagram (at most 1024 bytes,
read into the zeroed buffer) ends in the four bytes `d1 d2 d3 d4` and has `f` at index 3,
then a clear low bit of `f` makes `DNSv4` return the dotted decimal rendering of
`d1.d2.d3.d4` with `true`, and a set low bit makes it return the empty string with
`false`. -/
theorem DNSv4_reply_decoding (io : Sockets) (domain pre : List Nat) (d1 d2 d3 d4 f : Nat)
    (hdial : io.dialOk = true) (hreply : io.reply = pre ++ [d1, d2, d3, d4])
    (hlen : io.reply.length ≤ 1024) (hf : io.reply.get? 3 = some f) :
    (f % 2 = 0 → (DNSv4 io domain).2
        = Outcome.ret (itoa d1 ++ "." ++ itoa d2 ++ "." ++ itoa d3 ++ "." ++ itoa d4) true)
    ∧ (f % 2 = 1 → (DNSv4 io domain).2 = Outcome.ret "" false) := by
  have hn : io.reply.length = pre.length + 4 := by simp [hreply]
  have h3 : index (buffer io.reply) 3 = some f := by
    have := buffer_get io.reply 3 (by omega) hlen
    rw [hf] at this
    exact this
  have hidx : ∀ k : Nat, k < 4 →
      index (buffer io.reply) ((io.reply.length : Int) - 4 + k) = [d1, d2, d3, d4].get? k := by
    intro k hk
    have e : ((io.reply.length : Int) - 4 + k) = ((pre.length + k : Nat) : Int) := by
      rw [hn]; push_cast; ring
    rw [e, buffer_get io.reply (pre.length + k) (by omega) hlen, hreply,
      List.get?_eq_getElem?, List.get?_eq_getElem?, List.getElem?_append_right (by omega)]
    simp
  have e1 : index (buffer io.reply) ((io.reply.length : Int) - 4) = some d1 := by
    have := hidx 0 (by omega); simpa using this
  have e2 : index (buffer io.reply) ((io.reply.length : Int) - 3) = some d2 := by
    have := hidx 1 (by omega)
    have e : ((io.reply.length : Int) - 4 + (1 : Nat)) = (io.reply.length : Int) - 3 := by
      push_cast; ring
    rw [e] at this; simpa using this
  have e3 : index (buffer io.reply) ((io.reply.length : Int) - 2) = some d3 := by
    have := hidx 2 (by omega)
    have e : ((io.reply.length : Int) - 4 + (2 : Nat)) = (io.reply.length : Int) - 2 := by
      push_cast; ring
    rw [e] at this; simpa using this
  have e4 : index (buffer io.reply) ((io.reply.length : Int) - 1) = some d4 := by
    have := hidx 3 (by omega)
    have e : ((io.reply.length : Int) - 4 + (3 : Nat)) = (io.reply.length : Int) - 1 := by
      push_cast; ring
    rw [e] at this; simpa using this
  constructor
  · intro hbit
    simp [DNSv4, hdial, h3, land_one, hbit, e1, e2, e3, e4]
  · intro hbit
    simp [DNSv4, hdial, h3, land_one, hbit]

/-- Witness for C1: the reply of the specification's example, whose last bytes are
93, 184, 216, 34. -/
theorem DNSv4_reply_decoding_witness :
    (Dns.DNSv4 ⟨true, true, [1, 2, 0x81, 0x80, 0, 1, 0, 1, 93, 184, 216, 34], true⟩ [97]).2
      = Outcome.ret "93.184.216.34" true :=
  (DNSv4_reply_decoding ⟨true, true, [1, 2, 0x81, 0x80, 0, 1, 0, 1, 93, 184, 216, 34], true⟩
    [97] [1, 2, 0x81, 0x80, 0, 1, 0, 1] 93 184 216 34 0x80 rfl rfl (by decide) rfl).1
    (by decide)

/-- C7, the handled half: a failed UDP dial makes `DNSv4` return the empty string with
`false`, and nothing is sent. -/
theorem DNSv4_dial_error (io : Sockets) (domain : List Nat) (hdial : io.dialOk = false) :
    DNSv4 io domain = ([], Outcome.ret "" false) := by
  simp [DNSv4, hdial]

/-- C7, the unhandled half in general: once the dial has succeeded, a read that stores
fewer than four bytes (in particular none, when the read fails) makes `DNSv4` panic. -/
theorem DNSv4_short_reply_faults (io : Sockets) (domain : List Nat)
    (hdial : io.dialOk = true) (hshort : io.reply.length < 4) :
    (DNSv4 io domain).2 = Outcome.fault := by
  have h3 : index (buffer io.reply) 3 = some 0 := by
    have h0 : ¬ ((3 : Int) < 0) := by omega
    simp only [index, h0, if_false, buffer]
    have e : (3 : Int).toNat = 3 := rfl
    rw [e, List.get?_eq_getElem?, List.getElem?_take_of_lt (by omega),
      List.getElem?_append_right (by omega)]
    simp only [List.getElem?_replicate]
    rw [if_pos (by omega)]
  have h4 : index (buffer io.reply) ((io.reply.length : Int) - 4) = none := by
    have hneg : ((io.reply.length : Int) - 4) < 0 := by omega
    simp only [index, hneg, if_true]
  simp [DNSv4, hdial, h3, h4]

/-- C7, failing input: the dial succeeds, the query for `a.b` is written, and the read
fails with `n = 0` (no reply). The buffer is still zeroed, the error bit is clear, and
`b[n-4]` is `b[-4]`: the call panics instead of returning the empty string and `false`. -/
theorem DNSv4_no_reply_faults :
    (DNSv4 ⟨true, true, [], false⟩ [97, 46, 98]).2 = Outcome.fault
    ∧ (DNSv4 ⟨true, true, [], false⟩ [97, 46, 98]).2 ≠ Outcome.ret "" false := by
  decide

/-- C8. Query wire layout: the datagram built for `domain` is the 12 header bytes
`01 02 00 00 00 01 00 00 00 00 00 00`, then for each label of `domain` split on `.`, in
order, one length byte (length mod 256) and the label, then `00` and `00 01 00 01`; it has
`len(domain) + 18` bytes; the labels contain no `.` and joined by `.` give `domain` back;
and it is the one datagram `DNSv4` writes once the dial has succeeded. -/
theorem DNSv4_query_layout (io : Sockets) (domain : List Nat) :
    all domain
        = [0x01, 0x02, 0x00, 0x00, 0x00, 0x01, 0x00, 0x00, 0x00, 0x00, 0x00, 0x00]
          ++ (stringsSplit 46 domain).flatMap (fun label => (label.length % 256) :: label)
          ++ [0x00] ++ [0x00, 0x01, 0x00, 0x01]
    ∧ (all domain).length = domain.length + 18
    ∧ List.intercalate [46] (stringsSplit 46 domain) = domain
    ∧ (∀ label ∈ stringsSplit 46 domain, 46 ∉ label)
    ∧ (DNSv4 io domain).1 = if io.dialOk then [all domain] else [] := by
  have hq : all domain
        = [0x01, 0x02, 0x00, 0x00, 0x00, 0x01, 0x00, 0x00, 0x00, 0x00, 0x00, 0x00]
          ++ (stringsSplit 46 domain).flatMap (fun label => (label.length % 256) :: label)
          ++ [0x00] ++ [0x00, 0x01, 0x00, 0x01] := by
    unfold all domainSet
    rw [foldl_labels]
    simp [header]
  refine ⟨hq, ?_, stringsSplit_join 46 domain, stringsSplit_no_sep 46 domain, ?_⟩
  · rw [hq]
    simp only [List.length_append, labels_length, List.length_cons, List.length_nil]
    omega
  · cases hd : io.dialOk with
    | false => simp [DNSv4, hd]
    | true =>
      simp only [DNSv4, hd, Bool.not_true]
      repeat' split
      all_goals first | rfl | simp_all

/-- C9 as stated fails: in the query for `a.b` the RD bit (low bit of header byte 2) is
clear, so the header does not ask for recursion. -/
theorem DNSv4_query_flags_counterexample :
    ¬ (flagQR (all [97, 46, 98]) = 0 ∧ flagOpcode (all [97, 46, 98]) = 0
        ∧ qdcount (all [97, 46, 98]) = 1 ∧ flagRD (all [97, 46, 98]) = 1) := by
  decide

/-- C9 amended. The fixed header of every query asks one standard question with both flag
bytes zero: QR = 0, OPCODE = 0, QDCOUNT = 1, and the RD bit is clear. -/
theorem DNSv4_query_flags (domain : List Nat) :
    (all domain).take 12 = header
    ∧ flagQR (all domain) = 0 ∧ flagOpcode (all domain) = 0
    ∧ qdcount (all domain) = 1 ∧ flagRD (all domain) = 0 := by
  simp [all, header, flagQR, flagOpcode, qdcount, flagRD]

end Dns

namespace Http

theorem lookup_cons_self (k : String) (b : List String) (es : List (String × List String)) :
    List.lookup k ((k, b) :: es) = some b := by
  simp [List.lookup]

theorem lookup_cons_ne (k a : String) (b : List String) (es : List (String × List String))
    (hne : k ≠ a) : List.lookup k ((a, b) :: es) = List.lookup k es := by
  have : (k == a) = false := by simpa using hne
  simp [List.lookup, this]

theorem values_Del_self (h : Header) (k : String) : (h.Del k).values k = none := by
  cases h with
  | mk es =>
    simp only [Header.Del, Header.values]
    induction es with
    | nil => rfl
    | cons kv es ih =>
      obtain ⟨a, b⟩ := kv
      by_cases hk : a = k
      · simp only [List.filter_cons, hk, bne_self_eq_false, Bool.false_eq_true, if_false]
        exact ih
      · have hb : (a != k) = true := by simpa using hk
        simp only [List.filter_cons, hb, if_true]
        rw [lookup_cons_ne k a b _ (fun e => hk e.symm)]
        exact ih

theorem values_Del_ne (h : Header) (k k2 : String) (hne : k2 ≠ k) :
    (h.Del k).values k2 = h.values k2 := by
  cases h with
  | mk es =>
    simp only [Header.Del, Header.values]
    induction es with
    | nil => rfl
    | cons kv es ih =>
      obtain ⟨a, b⟩ := kv
      by_cases hk : a = k
      · simp only [List.filter_cons, hk, bne_self_eq_false, Bool.false_eq_true, if_false]
        rw [lookup_cons_ne k2 k b _ hne]
        exact ih
      · have hb : (a != k) = true := by simpa using hk
        simp only [List.filter_cons, hb, if_true]
        by_cases hk3 : k2 = a
        · subst hk3
          rw [lookup_cons_self, lookup_cons_self]
        · rw [lookup_cons_ne k2 a b _ hk3, lookup_cons_ne k2 a b _ hk3]
          exact ih

theorem values_Set_self (h : Header) (k v : String) : (h.Set k v).values k = some [v] := by
  simp only [Header.Set, Header.values]
  exact lookup_cons_self k [v] _

theorem values_Set_ne (h : Header) (k v k2 : String) (hne : k2 ≠ k) :
    (h.Set k v).values k2 = h.values k2 := by
  have := values_Del_ne h k k2 hne
  simp only [Header.values] at this
  simp only [Header.Set, Header.values]
  rw [lookup_cons_ne k2 k [v] _ hne]
  exact this

theorem three_Del (h : Header) :
    StrippedFrom false
      (((h.Del "Proxy-Connection").Del "Proxy-Authenticate").Del "Proxy-Authorization") h := by
  refine ⟨?_, ?_, ?_, ?_⟩
  · rw [values_Del_ne _ _ _ (by decide), values_Del_ne _ _ _ (by decide), values_Del_self]
  · rw [values_Del_ne _ _ _ (by decide), values_Del_self]
  · rw [values_Del_self]
  · intro k h1 h2 h3 _
    rw [values_Del_ne _ _ _ h3, values_Del_ne _ _ _ h2, values_Del_ne _ _ _ h1]

theorem prepareRequest_header (req : Request) :
    StrippedFrom true (prepareRequest req).header req.header := by
  obtain ⟨a, b, c, d⟩ := three_Del
    (if req.header.Get "Proxy-Connection" ≠ "" then
      req.header.Set "Connection" (req.header.Get "Proxy-Connection") else req.header)
  refine ⟨a, b, c, ?_⟩
  intro k h1 h2 h3 h4
  have := d k h1 h2 h3 (by simp)
  simp only [prepareRequest]
  rw [this]
  split
  · exact values_Set_ne _ _ _ _ (h4 rfl)
  · rfl

theorem stripResponse_header (resp : Response) :
    StrippedFrom false (stripResponse resp).header resp.header :=
  three_Del resp.header

theorem prepareRequest_host (req : Request) : (prepareRequest req).host = req.host := rfl

theorem stripResponse_connection (resp : Response) :
    (stripResponse resp).header.Get "Connection" = resp.header.Get "Connection" := by
  have := (stripResponse_header resp).2.2.2 "Connection" (by decide) (by decide) (by decide)
    (by simp)
  simp only [Header.Get, this]

theorem relayOnce_events (x : Exchange) (req : Request) :
    ∀ e ∈ (relayOnce x req).1,
      e.isReadRequest = false
      ∧ e ≠ Event.serverClose ∧ e ≠ Event.clientClose
      ∧ (∀ r ok, e = Event.reqWrite r ok → r = prepareRequest req)
      ∧ (∀ p ok, e = Event.respWrite p ok →
          ∃ p0, Event.readResponse (Res.ok p0) ∈ (relayOnce x req).1 ∧ p = stripResponse p0) := by
  intro e he
  simp only [relayOnce] at he ⊢
  split at he
  · simp at he; subst he; simp [Event.isReadRequest]
  · split at he
    · simp at he
      rcases he with he | he <;> subst he <;> simp [Event.isReadRequest]
    · split at he
      · simp at he
        rcases he with he | he | he <;> subst he <;> simp [Event.isReadRequest]
      · simp at he
        rcases he with he | he | he <;> subst he <;> simp [Event.isReadRequest]

theorem plainLoop_stop (host : String) (io : Nat → Exchange) (i : Nat) (req : Request)
    (rest : List (Res Request)) (evs : List Event) (r : Option Err)
    (h : relayOnce (io i) req = (evs, some r)) : plainLoop host io i req rest = (evs, r) :=
  plainLoop.eq_1 host io i req rest evs r h

theorem plainLoop_eof (host : String) (io : Nat → Exchange) (i : Nat) (req : Request)
    (evs : List Event) (h : relayOnce (io i) req = (evs, none)) :
    plainLoop host io i req []
      = (evs ++ [Event.readRequest (Res.error EOF)], some EOF) :=
  plainLoop.eq_2 host io i req evs h

theorem plainLoop_error (host : String) (io : Nat → Exchange) (i : Nat) (req : Request)
    (evs : List Event) (e : Err) (rest1 : List (Res Request))
    (h : relayOnce (io i) req = (evs, none)) :
    plainLoop host io i req (Res.error e :: rest1)
      = (evs ++ [Event.readRequest (Res.error e)], some e) :=
  plainLoop.eq_3 host io i req evs e rest1 h

theorem plainLoop_foreign (host : String) (io : Nat → Exchange) (i : Nat) (req : Request)
    (evs : List Event) (next : Request) (rest1 : List (Res Request))
    (h : relayOnce (io i) req = (evs, none)) (hne : next.host ≠ host) :
    plainLoop host io i req (Res.ok next :: rest1)
      = (evs ++ [Event.readRequest (Res.ok next)], none) := by
  rw [plainLoop.eq_4 host io i req evs next rest1 h]
  simp [hne]

theorem plainLoop_same (host : String) (io : Nat → Exchange) (i : Nat) (req : Request)
    (evs : List Event) (next : Request) (rest1 : List (Res Request))
    (h : relayOnce (io i) req = (evs, none)) (heq : next.host = host) :
    plainLoop host io i req (Res.ok next :: rest1)
      = (evs ++ Event.readRequest (Res.ok next) :: (plainLoop host io (i + 1) next rest1).1,
          (plainLoop host io (i + 1) next rest1).2) := by
  rw [plainLoop.eq_4 host io i req evs next rest1 h]
  simp [heq]

/-- Case analysis along the run of the loop. -/
theorem plainLoop_cases (host : String) (io : Nat → Exchange)
    (P : Nat → Request → List (Res Request) → List Event × Option Err → Prop)
    (stop : ∀ i req rest evs r, relayOnce (io i) req = (evs, some r) → P i req rest (evs, r))
    (eof : ∀ i req evs, relayOnce (io i) req = (evs, none) →
      P i req [] (evs ++ [Event.readRequest (Res.error EOF)], some EOF))
    (err : ∀ i req evs e rest1, relayOnce (io i) req = (evs, none) →
      P i req (Res.error e :: rest1) (evs ++ [Event.readRequest (Res.error e)], some e))
    (foreign : ∀ i req evs next rest1, relayOnce (io i) req = (evs, none) → next.host ≠ host →
      P i req (Res.ok next :: rest1) (evs ++ [Event.readRequest (Res.ok next)], none))
    (same : ∀ i req evs next rest1, relayOnce (io i) req = (evs, none) → next.host = host →
      P (i + 1) next rest1 (plainLoop host io (i + 1) next rest1) →
      P i req (Res.ok next :: rest1)
        (evs ++ Event.readRequest (Res.ok next) :: (plainLoop host io (i + 1) next rest1).1,
          (plainLoop host io (i + 1) next rest1).2)) :
    ∀ rest i req, P i req rest (plainLoop host io i req rest) := by
  intro rest
  induction rest with
  | nil =>
    intro i req
    rcases h : relayOnce (io i) req with ⟨evs, _ | r⟩
    · rw [plainLoop_eof host io i req evs h]; exact eof i req evs h
    · rw [plainLoop_stop host io i req [] evs r h]; exact stop i req [] evs r h
  | cons x rest1 ih =>
    intro i req
    rcases h : relayOnce (io i) req with ⟨evs, _ | r⟩
    · cases x with
      | error e => rw [plainLoop_error host io i req evs e rest1 h]; exact err i req evs e rest1 h
      | ok next =>
        by_cases hh : next.host = host
        · rw [plainLoop_same host io i req evs next rest1 h hh]
          exact same i req evs next rest1 h hh (ih (i + 1) next)
        · rw [plainLoop_foreign host io i req evs next rest1 h hh]
          exact foreign i req evs next rest1 h hh
    · rw [plainLoop_stop host io i req _ evs r h]; exact stop i req _ evs r h

theorem relayOnce_fst (x : Exchange) (req : Request) (evs : List Event)
    (o : Option (Option Err)) (h : relayOnce x req = (evs, o)) :
    ∀ e ∈ evs,
      e.isReadRequest = false
      ∧ (∀ r ok, e = Event.reqWrite r ok → r = prepareRequest req)
      ∧ (∀ p ok, e = Event.respWrite p ok →
          ∃ p0, Event.readResponse (Res.ok p0) ∈ evs ∧ p = stripResponse p0) := by
  intro e he
  have hevs : (relayOnce x req).1 = evs := by rw [h]
  have := relayOnce_events x req e (by rw [hevs]; exact he)
  rw [hevs] at this
  exact ⟨this.1, this.2.2.2.1, this.2.2.2.2⟩

theorem plainLoop_reqWrite (host : String) (io : Nat → Exchange) :
    ∀ rest i req, ∀ r ok, Event.reqWrite r ok ∈ (plainLoop host io i req rest).1 →
      r = prepareRequest req
      ∨ ∃ r0, Event.readRequest (Res.ok r0) ∈ (plainLoop host io i req rest).1
          ∧ r0.host = host ∧ r = prepareRequest r0 := by
  refine plainLoop_cases host io
    (fun _ req _ t => ∀ r ok, Event.reqWrite r ok ∈ t.1 →
      r = prepareRequest req
      ∨ ∃ r0, Event.readRequest (Res.ok r0) ∈ t.1 ∧ r0.host = host ∧ r = prepareRequest r0)
    ?_ ?_ ?_ ?_ ?_
  · intro i req rest evs o h r ok hm
    exact Or.inl ((relayOnce_fst _ _ _ _ h _ hm).2.1 r ok rfl)
  · intro i req evs h r ok hm
    simp only [List.mem_append, List.mem_singleton] at hm
    rcases hm with hm | hm
    · exact Or.inl ((relayOnce_fst _ _ _ _ h _ hm).2.1 r ok rfl)
    · cases hm
  · intro i req evs e rest1 h r ok hm
    simp only [List.mem_append, List.mem_singleton] at hm
    rcases hm with hm | hm
    · exact Or.inl ((relayOnce_fst _ _ _ _ h _ hm).2.1 r ok rfl)
    · cases hm
  · intro i req evs next rest1 h _ r ok hm
    simp only [List.mem_append, List.mem_singleton] at hm
    rcases hm with hm | hm
    · exact Or.inl ((relayOnce_fst _ _ _ _ h _ hm).2.1 r ok rfl)
    · cases hm
  · intro i req evs next rest1 h hh ih r ok hm
    simp only [List.mem_append, List.mem_cons] at hm
    rcases hm with hm | hm | hm
    · exact Or.inl ((relayOnce_fst _ _ _ _ h _ hm).2.1 r ok rfl)
    · cases hm
    · right
      rcases ih r ok hm with h1 | ⟨r0, h1, h2, h3⟩
      · exact ⟨next, by simp, hh, h1⟩
      · exact ⟨r0, by simp [h1], h2, h3⟩

theorem plainLoop_respWrite (host : String) (io : Nat → Exchange) :
    ∀ rest i req, ∀ p ok, Event.respWrite p ok ∈ (plainLoop host io i req rest).1 →
      ∃ p0, Event.readResponse (Res.ok p0) ∈ (plainLoop host io i req rest).1
        ∧ p = stripResponse p0 := by
  refine plainLoop_cases host io
    (fun _ _ _ t => ∀ p ok, Event.respWrite p ok ∈ t.1 →
      ∃ p0, Event.readResponse (Res.ok p0) ∈ t.1 ∧ p = stripResponse p0)
    ?_ ?_ ?_ ?_ ?_
  · intro i req rest evs o h p ok hm
    exact (relayOnce_fst _ _ _ _ h _ hm).2.2 p ok rfl
  · intro i req evs h p ok hm
    simp only [List.mem_append, List.mem_singleton] at hm
    rcases hm with hm | hm
    · obtain ⟨p0, h1, h2⟩ := (relayOnce_fst _ _ _ _ h _ hm).2.2 p ok rfl
      exact ⟨p0, by simp [h1], h2⟩
    · cases hm
  · intro i req evs e rest1 h p ok hm
    simp only [List.mem_append, List.mem_singleton] at hm
    rcases hm with hm | hm
    · obtain ⟨p0, h1, h2⟩ := (relayOnce_fst _ _ _ _ h _ hm).2.2 p ok rfl
      exact ⟨p0, by simp [h1], h2⟩
    · cases hm
  · intro i req evs next rest1 h _ p ok hm
    simp only [List.mem_append, List.mem_singleton] at hm
    rcases hm with hm | hm
    · obtain ⟨p0, h1, h2⟩ := (relayOnce_fst _ _ _ _ h _ hm).2.2 p ok rfl
      exact ⟨p0, by simp [h1], h2⟩
    · cases hm
  · intro i req evs next rest1 h hh ih p ok hm
    simp only [List.mem_append, List.mem_cons] at hm
    rcases hm with hm | hm | hm
    · obtain ⟨p0, h1, h2⟩ := (relayOnce_fst _ _ _ _ h _ hm).2.2 p ok rfl
      exact ⟨p0, by simp [h1], h2⟩
    · cases hm
    · obtain ⟨p0, h1, h2⟩ := ih p ok hm
      exact ⟨p0, by simp [h1], h2⟩

theorem plainLoop_foreign_last (host : String) (io : Nat → Exchange) :
    ∀ rest i req, ∀ r, Event.readRequest (Res.ok r) ∈ (plainLoop host io i req rest).1 →
      r.host ≠ host →
      [Event.readRequest (Res.ok r)] <:+ (plainLoop host io i req rest).1
        ∧ (plainLoop host io i req rest).2 = none := by
  refine plainLoop_cases host io
    (fun _ _ _ t => ∀ r, Event.readRequest (Res.ok r) ∈ t.1 → r.host ≠ host →
      [Event.readRequest (Res.ok r)] <:+ t.1 ∧ t.2 = none)
    ?_ ?_ ?_ ?_ ?_
  · intro i req rest evs o h r hm _
    have := (relayOnce_fst _ _ _ _ h _ hm).1
    simp [Event.isReadRequest] at this
  · intro i req evs h r hm _
    simp only [List.mem_append, List.mem_singleton] at hm
    rcases hm with hm | hm
    · have := (relayOnce_fst _ _ _ _ h _ hm).1
      simp [Event.isReadRequest] at this
    · cases hm
  · intro i req evs e rest1 h r hm _
    simp only [List.mem_append, List.mem_singleton] at hm
    rcases hm with hm | hm
    · have := (relayOnce_fst _ _ _ _ h _ hm).1
      simp [Event.isReadRequest] at this
    · cases hm
  · intro i req evs next rest1 h _ r hm _
    simp only [List.mem_append, List.mem_singleton] at hm
    rcases hm with hm | hm
    · have := (relayOnce_fst _ _ _ _ h _ hm).1
      simp [Event.isReadRequest] at this
    · cases hm
      exact ⟨List.suffix_append _ _, rfl⟩
  · intro i req evs next rest1 h hh ih r hm hr
    simp only [List.mem_append, List.mem_cons] at hm
    rcases hm with hm | hm | hm
    · have := (relayOnce_fst _ _ _ _ h _ hm).1
      simp [Event.isReadRequest] at this
    · cases hm
      exact absurd hh hr
    · obtain ⟨h1, h2⟩ := ih r hm hr
      refine ⟨?_, h2⟩
      obtain ⟨pre, hpre⟩ := h1
      exact ⟨evs ++ Event.readRequest (Res.ok next) :: pre, by simp [← hpre]⟩

/-- C2. CONNECT reply: for a CONNECT request whose outbound dial succeeds, the handler
reaches `forward` exactly when the write to the client returned no error; the only write to
the client before `forward` (in the whole run, when `forward` is not reached) is the
literal `HTTP/1.1 200 Connection established` followed by two CRLF, 39 bytes, and no write
to the outbound connection precedes `forward`. -/
theorem connect_reply (env : Env) (req : Request) (rest : List (Res Request))
    (hm : req.method = "CONNECT") (hd : env.dial req.host = true) :
    (Event.forward ∈ (httpHandleClientRequest env (Res.ok req :: rest)).1
        ↔ env.clientWrite = none)
    ∧ (beforeForward (httpHandleClientRequest env (Res.ok req :: rest)).1).filter
          Event.writesClient
        = [Event.clientWrite "HTTP/1.1 200 Connection established\r\n\r\n"
            env.clientWrite.isNone]
    ∧ (beforeForward (httpHandleClientRequest env (Res.ok req :: rest)).1).filter
          Event.writesServer = []
    ∧ established.length = 39 ∧ established.utf8ByteSize = 39 := by
  refine ⟨?_, ?_, ?_, by decide, by decide⟩
  · cases hc : env.clientWrite <;>
      simp [httpHandleClientRequest, hm, hd, hc]
  · cases hc : env.clientWrite <;>
      simp [httpHandleClientRequest, hm, hd, hc, beforeForward, List.takeWhile,
        Event.isForward, List.filter, Event.writesClient, established]
  · cases hc : env.clientWrite <;>
      simp [httpHandleClientRequest, hm, hd, hc, beforeForward, List.takeWhile,
        Event.isForward, List.filter, Event.writesServer]

/-- Witness for C2: `CONNECT example.com:443`, the dial and the write to the client
succeed. -/
theorem connect_reply_witness :
    Event.forward ∈ (httpHandleClientRequest
        ⟨fun _ => true, none, fun _ => ⟨none, Res.error "unused", none⟩⟩
        [Res.ok ⟨"CONNECT", "example.com:443", "", "example.com:443", "", ⟨[]⟩, []⟩]).1 :=
  (connect_reply ⟨fun _ => true, none, fun _ => ⟨none, Res.error "unused", none⟩⟩
    ⟨"CONNECT", "example.com:443", "", "example.com:443", "", ⟨[]⟩, []⟩ [] rfl rfl).1.mpr rfl

theorem handler_cases (env : Env) (reads : List (Res Request)) :
    (∃ first rest, reads = Res.ok first :: rest
      ∧ httpHandleClientRequest env reads
          = ([Event.readRequest (Res.ok first), Event.dial first.host true]
              ++ (plainLoop first.host env.exchange 0 first rest).1 ++ [Event.serverClose],
             (plainLoop first.host env.exchange 0 first rest).2))
    ∨ ((∀ r ok, Event.reqWrite r ok ∉ (httpHandleClientRequest env reads).1)
      ∧ (∀ p ok, Event.respWrite p ok ∉ (httpHandleClientRequest env reads).1)
      ∧ (∀ r, Event.readRequest (Res.ok r) ∈ (httpHandleClientRequest env reads).1 →
          ∃ rest, reads = Res.ok r :: rest)) := by
  cases reads with
  | nil => right; simp [httpHandleClientRequest]
  | cons x rest =>
    cases x with
    | error e => right; simp [httpHandleClientRequest]
    | ok first =>
      by_cases hd : env.dial first.host = true
      · by_cases hm : first.method = "CONNECT"
        · right
          cases hc : env.clientWrite <;> simp [httpHandleClientRequest, hd, hm, hc]
        · left
          exact ⟨first, rest, rfl, by simp [httpHandleClientRequest, hd, hm]⟩
      · right
        simp [httpHandleClientRequest, hd]

/-- C4. Host pinning: in every run of the accepting goroutine whose first request is
`first`, each request written to the outbound connection has the `Host` of `first`; and a
request read with a different `Host` is the last step before the outbound and the client
connection are closed, the handler returns nil, and that request is never written to the
outbound connection. -/
theorem host_pinning (env : Env) (first : Request) (rest : List (Res Request)) :
    (∀ r ok, Event.reqWrite r ok ∈ (httpProxyAcceptARequest env (Res.ok first :: rest)).1 →
      r.host = first.host)
    ∧ (∀ r, Event.readRequest (Res.ok r) ∈ (httpProxyAcceptARequest env (Res.ok first :: rest)).1 →
        r.host ≠ first.host →
        [Event.readRequest (Res.ok r), Event.serverClose, Event.clientClose]
            <:+ (httpProxyAcceptARequest env (Res.ok first :: rest)).1
          ∧ (httpProxyAcceptARequest env (Res.ok first :: rest)).2 = none
          ∧ ∀ ok, Event.reqWrite (prepareRequest r) ok
              ∉ (httpProxyAcceptARequest env (Res.ok first :: rest)).1) := by
  have hpin : ∀ r ok, Event.reqWrite r ok ∈ (httpProxyAcceptARequest env (Res.ok first :: rest)).1 →
      r.host = first.host := by
    intro r ok hm
    simp only [httpProxyAcceptARequest, List.mem_append, List.mem_singleton] at hm
    rcases hm with hm | hm
    · rcases handler_cases env (Res.ok first :: rest) with ⟨f, rs, he, htr⟩ | ⟨h1, _, _⟩
      · cases he
        rw [htr] at hm
        simp only [List.mem_append, List.mem_cons, List.mem_singleton, List.not_mem_nil,
          or_false] at hm
        rcases hm with (hm | hm) | hm
        · rcases hm with hm | hm <;> cases hm
        · rcases plainLoop_reqWrite first.host env.exchange rest 0 first r ok hm with
            h | ⟨r0, _, h2, h3⟩
          · rw [h]; rfl
          · rw [h3]; exact h2
        · cases hm
      · exact absurd hm (h1 r ok)
    · cases hm
  refine ⟨hpin, ?_⟩
  intro r hm hne
  refine ⟨?_, ?_, fun ok hw => hne (hpin (prepareRequest r) ok hw)⟩
  all_goals
    simp only [httpProxyAcceptARequest, List.mem_append, List.mem_singleton] at hm
    rcases hm with hm | hm
    · rcases handler_cases env (Res.ok first :: rest) with ⟨f, rs, he, htr⟩ | ⟨_, _, h3⟩
      · cases he
        rw [htr] at hm
        simp only [List.mem_append, List.mem_cons, List.mem_singleton, List.not_mem_nil,
          or_false] at hm
        rcases hm with (hm | hm) | hm
        · rcases hm with hm | hm
          · cases hm; exact absurd rfl hne
          · cases hm
        · obtain ⟨⟨pre, hpre⟩, hres⟩ :=
            plainLoop_foreign_last first.host env.exchange rest 0 first r hm hne
          first
            | exact ⟨[Event.readRequest (Res.ok first), Event.dial first.host true] ++ pre, by
                simp [httpProxyAcceptARequest, htr, ← hpre]⟩
            | simp [httpProxyAcceptARequest, htr, hres]
        · cases hm
      · obtain ⟨rs, he⟩ := h3 r hm
        cases he
        exact absurd rfl hne
    · cases hm

theorem Get_congr (h1 h2 : Header) (k : String) (h : h1.values k = h2.values k) :
    h1.Get k = h2.Get k := by
  simp only [Header.Get, h]

theorem Get_Set_self (h : Header) (k v : String) : (h.Set k v).Get k = v := by
  simp only [Header.Get, values_Set_self]

theorem prepareRequest_connection (req : Request) :
    (prepareRequest req).header.Get "Connection"
      = if req.header.Get "Proxy-Connection" ≠ "" then req.header.Get "Proxy-Connection"
        else req.header.Get "Connection" := by
  have h := (three_Del
    (if req.header.Get "Proxy-Connection" ≠ "" then
      req.header.Set "Connection" (req.header.Get "Proxy-Connection") else req.header)).2.2.2
    "Connection" (by decide) (by decide) (by decide) (by simp)
  have e : (prepareRequest req).header.Get "Connection"
      = (if req.header.Get "Proxy-Connection" ≠ "" then
          req.header.Set "Connection" (req.header.Get "Proxy-Connection")
        else req.header).Get "Connection" := Get_congr _ _ _ h
  rw [e]
  by_cases hp : req.header.Get "Proxy-Connection" ≠ ""
  · rw [if_pos hp, if_pos hp, Get_Set_self]
  · rw [if_neg hp, if_neg hp]

theorem relayOnce_ok (x : Exchange) (req : Request) (resp : Response)
    (h1 : x.reqWrite = none) (h2 : x.resp = Res.ok resp) (h3 : x.respWrite = none) :
    relayOnce x req
      = ([Event.reqWrite (prepareRequest req) true, Event.readResponse (Res.ok resp),
          Event.respWrite (stripResponse resp) true],
         if (stripResponse resp).header.Get "Connection" = "close" then some none
         else if (prepareRequest req).header.Get "Connection" ≠ "Keep-Alive"
             ∧ (prepareRequest req).header.Get "Connection" ≠ "keep-alive" then some none
         else none) := by
  simp only [relayOnce, h1, h2, h3]

/-- The two `break` tests of lines 194-200, on the messages as `http.ReadRequest` and
`http.ReadResponse` delivered them: in an iteration whose exchange is relayed without error
the handler calls `http.ReadRequest` no further if and only if the parsed response's
`Connection` value is `close` or the request's `Connection` value is neither `Keep-Alive`
nor `keep-alive`; the request's value is that of `Proxy-Connection` when this is not empty
and that of `Connection` otherwise. -/
theorem keepalive_stop (host : String) (io : Nat → Exchange) (i : Nat) (req : Request)
    (rest : List (Res Request)) (resp : Response)
    (h1 : (io i).reqWrite = none) (h2 : (io i).resp = Res.ok resp)
    (h3 : (io i).respWrite = none) :
    ((∀ e ∈ (plainLoop host io i req rest).1, e.isReadRequest = false)
      ↔ (resp.header.Get "Connection" = "close"
          ∨ ((prepareRequest req).header.Get "Connection" ≠ "Keep-Alive"
              ∧ (prepareRequest req).header.Get "Connection" ≠ "keep-alive")))
    ∧ (prepareRequest req).header.Get "Connection"
        = (if req.header.Get "Proxy-Connection" ≠ "" then req.header.Get "Proxy-Connection"
           else req.header.Get "Connection") := by
  refine ⟨?_, prepareRequest_connection req⟩
  have hr := relayOnce_ok (io i) req resp h1 h2 h3
  rw [stripResponse_connection] at hr
  by_cases c1 : resp.header.Get "Connection" = "close"
  · rw [if_pos c1] at hr
    rw [plainLoop_stop host io i req rest _ _ hr]
    simp [c1, Event.isReadRequest]
  · rw [if_neg c1] at hr
    by_cases c2 : (prepareRequest req).header.Get "Connection" ≠ "Keep-Alive"
        ∧ (prepareRequest req).header.Get "Connection" ≠ "keep-alive"
    · rw [if_pos c2] at hr
      rw [plainLoop_stop host io i req rest _ _ hr]
      simp [c2, Event.isReadRequest]
    · rw [if_neg c2] at hr
      have hrhs : ¬ (resp.header.Get "Connection" = "close"
          ∨ ((prepareRequest req).header.Get "Connection" ≠ "Keep-Alive"
              ∧ (prepareRequest req).header.Get "Connection" ≠ "keep-alive")) := by
        rintro (h | h)
        · exact c1 h
        · exact c2 h
      refine iff_of_false ?_ hrhs
      intro hall
      cases rest with
      | nil =>
        rw [plainLoop_eof host io i req _ hr] at hall
        have := hall (Event.readRequest (Res.error EOF)) (by simp)
        simp [Event.isReadRequest] at this
      | cons x rest1 =>
        cases x with
        | error e =>
          rw [plainLoop_error host io i req _ e rest1 hr] at hall
          have := hall (Event.readRequest (Res.error e)) (by simp)
          simp [Event.isReadRequest] at this
        | ok next =>
          by_cases hh : next.host = host
          · rw [plainLoop_same host io i req _ next rest1 hr hh] at hall
            have := hall (Event.readRequest (Res.ok next)) (by simp)
            simp [Event.isReadRequest] at this
          · rw [plainLoop_foreign host io i req _ next rest1 hr hh] at hall
            have := hall (Event.readRequest (Res.ok next)) (by simp)
            simp [Event.isReadRequest] at this

theorem Get_Del_self (h : Header) (k : String) : (h.Del k).Get k = "" := by
  simp only [Header.Get, values_Del_self]

/-- What `http.ReadResponse` leaves of a response of HTTP/1.1 or later that declares
`Connection: close`: no `Connection` entry at all. -/
theorem readResponse_drops_close (sent : SentResponse)
    (hv : 1 ≤ sent.protoMajor ∧ ¬ (sent.protoMajor = 1 ∧ sent.protoMinor = 0))
    (hc : declaresClose sent = true) :
    (readResponse sent).header.Get "Connection" = "" := by
  have h1 : ¬ sent.protoMajor < 1 := by omega
  have hc2 : headerValuesContainsToken ((sent.header.values "Connection").getD []) "close"
      = true := hc
  simp only [readResponse, shouldClose, h1, if_false, hv.2, hc2, Bool.and_self, if_true]
  exact Get_Del_self _ _

/-- C5, the defect for every such exchange: the origin server answers over HTTP/1.1 or
later and declares `Connection: close`, the request is `Connection: Keep-Alive`, and the
exchange is relayed without error. `http.ReadResponse` has deleted the `Connection` entry
before line 194 tests it, so the handler does not stop: it calls `http.ReadRequest`
again. -/
theorem close_response_reads_on (host : String) (io : Nat → Exchange) (i : Nat)
    (req : Request) (rest : List (Res Request)) (sent : SentResponse)
    (hv : 1 ≤ sent.protoMajor ∧ ¬ (sent.protoMajor = 1 ∧ sent.protoMinor = 0))
    (hc : declaresClose sent = true)
    (h1 : (io i).reqWrite = none) (h2 : (io i).resp = Res.ok (readResponse sent))
    (h3 : (io i).respWrite = none)
    (hk : (prepareRequest req).header.Get "Connection" = "Keep-Alive") :
    ∃ e ∈ (plainLoop host io i req rest).1, e.isReadRequest = true := by
  by_contra hno
  have hall : ∀ e ∈ (plainLoop host io i req rest).1, e.isReadRequest = false := by
    intro e he
    cases hr : e.isReadRequest with
    | false => rfl
    | true => exact absurd ⟨e, he, hr⟩ hno
  have hstop := (keepalive_stop host io i req rest (readResponse sent) h1 h2 h3).1.mp hall
  rw [readResponse_drops_close sent hv hc, hk] at hstop
  rcases hstop with h | h
  · exact absurd h (by decide)
  · exact h.1 rfl

/-- C5, failing input: the client sends `GET http://example.com/` with
`Connection: Keep-Alive`; the origin server answers `HTTP/1.1 200` and declares
`Connection: close`; every write succeeds. The response declares `Connection: close`, so
the handler should stop after this exchange; the response as parsed has no `Connection`
entry left, and the handler goes on to read a further request from the client. -/
theorem keepalive_close_response_reads_on :
    declaresClose ⟨1, 1, 200, ⟨[("Connection", ["close"])]⟩, []⟩ = true
    ∧ (readResponse ⟨1, 1, 200, ⟨[("Connection", ["close"])]⟩, []⟩).header.Get "Connection"
        = ""
    ∧ ¬ (∀ e ∈ (plainLoop "example.com"
            (originSends ⟨1, 1, 200, ⟨[("Connection", ["close"])]⟩, []⟩) 0
            ⟨"GET", "example.com", "http", "example.com", "/",
              ⟨[("Connection", ["Keep-Alive"])]⟩, []⟩ []).1, e.isReadRequest = false)
    ∧ (plainLoop "example.com"
          (originSends ⟨1, 1, 200, ⟨[("Connection", ["close"])]⟩, []⟩) 0
          ⟨"GET", "example.com", "http", "example.com", "/",
            ⟨[("Connection", ["Keep-Alive"])]⟩, []⟩ []).1
        = [Event.reqWrite ⟨"GET", "example.com", "", "", "/",
              ⟨[("Connection", ["Keep-Alive"])]⟩, []⟩ true,
           Event.readResponse (Res.ok ⟨200, ⟨[]⟩, []⟩),
           Event.respWrite ⟨200, ⟨[]⟩, []⟩ true,
           Event.readRequest (Res.error EOF)] := by
  decide

/-- The same exchange over HTTP/1.0: the parser keeps the `Connection` entry and the handler
stops after the exchange. -/
theorem keepalive_close_response_http10_stops :
    (plainLoop "example.com"
        (originSends ⟨1, 0, 200, ⟨[("Connection", ["close"])]⟩, []⟩) 0
        ⟨"GET", "example.com", "http", "example.com", "/",
          ⟨[("Connection", ["Keep-Alive"])]⟩, []⟩ []).1
      = [Event.reqWrite ⟨"GET", "example.com", "", "", "/",
            ⟨[("Connection", ["Keep-Alive"])]⟩, []⟩ true,
         Event.readResponse (Res.ok ⟨200, ⟨[("Connection", ["close"])]⟩, []⟩),
         Event.respWrite ⟨200, ⟨[("Connection", ["close"])]⟩, []⟩ true] := by
  decide

theorem written_cons_true (d : List Nat) (ws : List (List Nat × Bool)) :
    written ((d, true) :: ws) = d ++ written ws := by
  simp [written, List.filter_cons, List.flatMap_cons]

theorem readsBeforeEnd_end (r : ReadResult) (rs : List ReadResult)
    (h : r.data.length = 0 ∨ r.err ≠ none) : readsBeforeEnd (r :: rs) = [] := by
  simp only [readsBeforeEnd, List.takeWhile_cons, decide_eq_true h, Bool.not_true]
  rfl

theorem readsBeforeEnd_go (r : ReadResult) (rs : List ReadResult)
    (h : ¬ (r.data.length = 0 ∨ r.err ≠ none)) :
    readsBeforeEnd (r :: rs) = r :: readsBeforeEnd rs := by
  simp only [readsBeforeEnd, List.takeWhile_cons, decide_eq_false h, Bool.not_false]
  rfl

theorem readsUsed_end (r : ReadResult) (rs : List ReadResult)
    (h : r.data.length = 0 ∨ r.err ≠ none) : readsUsed (r :: rs) = [r] := by
  simp only [readsUsed, if_pos h]

theorem readsUsed_go (r : ReadResult) (rs : List ReadResult)
    (h : ¬ (r.data.length = 0 ∨ r.err ≠ none)) : readsUsed (r :: rs) = r :: readsUsed rs := by
  simp only [readsUsed, if_neg h]

theorem pipeLoop_written (writeErr : Nat → Option Err) (hw : ∀ k, writeErr k = none) :
    ∀ (reads : List ReadResult) (buf : List Nat) (k : Nat),
      written (pipeLoop writeErr buf k reads).1 = delivered (readsBeforeEnd reads) := by
  intro reads
  induction reads with
  | nil => intro buf k; rfl
  | cons r rs ih =>
    intro buf k
    by_cases hend : r.data.length = 0 ∨ r.err ≠ none
    · rw [readsBeforeEnd_end r rs hend]
      simp only [pipeLoop, if_pos hend]
      rfl
    · rw [readsBeforeEnd_go r rs hend]
      simp only [pipeLoop, if_neg hend, hw k]
      rw [written_cons_true, ih, List.take_left]
      simp only [delivered, List.flatMap_cons]

theorem delivered_readsUsed (reads : List ReadResult)
    (hr : ∀ r ∈ reads, r.err ≠ none → r.data = []) :
    delivered (readsUsed reads) = delivered (readsBeforeEnd reads) := by
  induction reads with
  | nil => rfl
  | cons r rs ih =>
    by_cases hend : r.data.length = 0 ∨ r.err ≠ none
    · have hd : r.data = [] := by
        rcases hend with h | h
        · exact List.length_eq_zero.mp h
        · exact hr r (List.mem_cons_self _ _) h
      rw [readsBeforeEnd_end r rs hend, readsUsed_end r rs hend]
      simp [delivered, hd]
    · rw [readsBeforeEnd_go r rs hend, readsUsed_go r rs hend]
      have := ih (fun r2 h2 => hr r2 (List.mem_cons_of_mem _ h2))
      simp only [delivered, List.flatMap_cons] at this ⊢
      rw [this]

/-- What `pipe` writes in general: when every write succeeds, the bytes written to `dst`
are the bytes delivered by the reads that precede the read that ends the loop. -/
theorem pipe_written (writeErr : Nat → Option Err) (reads : List ReadResult)
    (hw : ∀ k, writeErr k = none) :
    written (pipe writeErr reads).1 = delivered (readsBeforeEnd reads) :=
  pipeLoop_written writeErr hw reads _ 0

/-- C6 as stated fails: a single read that delivers the two bytes `104 105` together with
`io.EOF` ends the loop before the write, so nothing is written although two bytes were
delivered. -/
theorem pipe_lossless_counterexample :
    ¬ (written (pipe (fun _ => none) [⟨[104, 105], some EOF⟩]).1
        = delivered (readsUsed [⟨[104, 105], some EOF⟩])) := by
  decide

/-- C6 amended. For every finite sequence of read results in which no read returns bytes
together with an error, and with every write succeeding, the bytes `pipe` writes to `dst`
are exactly the concatenation, in order, of all bytes the reads delivered up to and
including the read that ends the loop. -/
theorem pipe_lossless (writeErr : Nat → Option Err) (reads : List ReadResult)
    (hw : ∀ k, writeErr k = none) (hr : ∀ r ∈ reads, r.err ≠ none → r.data = []) :
    written (pipe writeErr reads).1 = delivered (readsUsed reads) := by
  rw [pipe_written writeErr reads hw, delivered_readsUsed reads hr]

/-- Witness for C6: two reads with data, then end of stream. -/
theorem pipe_lossless_witness :
    written (pipe (fun _ => none) [⟨[104, 105], none⟩, ⟨[33], none⟩, ⟨[], some EOF⟩]).1
      = delivered (readsUsed [⟨[104, 105], none⟩, ⟨[33], none⟩, ⟨[], some EOF⟩]) :=
  pipe_lossless (fun _ => none) [⟨[104, 105], none⟩, ⟨[33], none⟩, ⟨[], some EOF⟩]
    (fun _ => rfl) (by decide)

/-- A run of the accepting goroutine: two keep-alive requests to `a.example` are relayed,
the third request names `b.example` and ends the loop unwritten. -/
theorem keepalive_run_example :
    (httpProxyAcceptARequest ⟨fun _ => true, none, fun _ => ⟨none, Res.ok ⟨200, ⟨[]⟩, []⟩, none⟩⟩
      [Res.ok ⟨"GET", "a.example", "http", "a.example", "/1",
          ⟨[("Proxy-Connection", ["Keep-Alive"])]⟩, []⟩,
       Res.ok ⟨"GET", "a.example", "http", "a.example", "/2",
          ⟨[("Connection", ["Keep-Alive"])]⟩, []⟩,
       Res.ok ⟨"GET", "b.example", "http", "b.example", "/3",
          ⟨[("Connection", ["Keep-Alive"])]⟩, []⟩])
    = ([Event.readRequest (Res.ok ⟨"GET", "a.example", "http", "a.example", "/1",
          ⟨[("Proxy-Connection", ["Keep-Alive"])]⟩, []⟩),
        Event.dial "a.example" true,
        Event.reqWrite ⟨"GET", "a.example", "", "", "/1",
          ⟨[("Connection", ["Keep-Alive"])]⟩, []⟩ true,
        Event.readResponse (Res.ok ⟨200, ⟨[]⟩, []⟩),
        Event.respWrite ⟨200, ⟨[]⟩, []⟩ true,
        Event.readRequest (Res.ok ⟨"GET", "a.example", "http", "a.example", "/2",
          ⟨[("Connection", ["Keep-Alive"])]⟩, []⟩),
        Event.reqWrite ⟨"GET", "a.example", "", "", "/2",
          ⟨[("Connection", ["Keep-Alive"])]⟩, []⟩ true,
        Event.readResponse (Res.ok ⟨200, ⟨[]⟩, []⟩),
        Event.respWrite ⟨200, ⟨[]⟩, []⟩ true,
        Event.readRequest (Res.ok ⟨"GET", "b.example", "http", "b.example", "/3",
          ⟨[("Connection", ["Keep-Alive"])]⟩, []⟩),
        Event.serverClose, Event.clientClose], none) := by
  decide

theorem outboundWrites_append (a b : List Event) :
    outboundWrites (a ++ b) = outboundWrites a ++ outboundWrites b := by
  simp [outboundWrites, List.filterMap_append]

theorem requestsRead_append (a b : List Event) :
    requestsRead (a ++ b) = requestsRead a ++ requestsRead b := by
  simp [requestsRead, List.filterMap_append]

theorem clientResponses_append (a b : List Event) :
    clientResponses (a ++ b) = clientResponses a ++ clientResponses b := by
  simp [clientResponses, List.filterMap_append]

theorem responsesRead_append (a b : List Event) :
    responsesRead (a ++ b) = responsesRead a ++ responsesRead b := by
  simp [responsesRead, List.filterMap_append]

/-- One iteration hands exactly the rewritten current request to `req.Write`, reads no
request, and hands to `resp.Write` the stripped form of each response it read. -/
theorem relayOnce_lists (x : Exchange) (req : Request) :
    outboundWrites (relayOnce x req).1 = [prepareRequest req]
    ∧ requestsRead (relayOnce x req).1 = []
    ∧ clientResponses (relayOnce x req).1
        = (responsesRead (relayOnce x req).1).map stripResponse := by
  cases h1 : x.reqWrite <;> cases h2 : x.resp <;> cases h3 : x.respWrite <;>
    simp [relayOnce, h1, h2, h3, outboundWrites, requestsRead, clientResponses, responsesRead,
      List.filterMap, Event.asReqWrite, Event.asRequestRead, Event.asRespWrite,
      Event.asResponseRead]

theorem relayOnce_lists_of_eq (x : Exchange) (req : Request) (evs : List Event)
    (o : Option (Option Err)) (h : relayOnce x req = (evs, o)) :
    outboundWrites evs = [prepareRequest req] ∧ requestsRead evs = []
    ∧ clientResponses evs = (responsesRead evs).map stripResponse := by
  have hevs : (relayOnce x req).1 = evs := by rw [h]
  have := relayOnce_lists x req
  rw [hevs] at this
  exact this

/-- The loop hands to `req.Write`, in order, the rewritten current request and then the
rewritten form of each request read with the pinned `Host`; it hands to `resp.Write`, in
order, the stripped form of each response read. -/
theorem plainLoop_lists (host : String) (io : Nat → Exchange) :
    ∀ rest i req,
      outboundWrites (plainLoop host io i req rest).1
          = prepareRequest req
            :: ((requestsRead (plainLoop host io i req rest).1).filter
                  (fun r => decide (r.host = host))).map prepareRequest
      ∧ clientResponses (plainLoop host io i req rest).1
          = (responsesRead (plainLoop host io i req rest).1).map stripResponse := by
  refine plainLoop_cases host io
    (fun _ req _ t =>
      outboundWrites t.1
          = prepareRequest req
            :: ((requestsRead t.1).filter (fun r => decide (r.host = host))).map prepareRequest
      ∧ clientResponses t.1 = (responsesRead t.1).map stripResponse)
    ?_ ?_ ?_ ?_ ?_
  · intro i req rest evs o h
    obtain ⟨a, b, c⟩ := relayOnce_lists_of_eq _ _ _ _ h
    simp only [a, b, c]
    simp
  · intro i req evs h
    obtain ⟨a, b, c⟩ := relayOnce_lists_of_eq _ _ _ _ h
    simp only [outboundWrites_append, requestsRead_append, clientResponses_append,
      responsesRead_append, a, b, c]
    simp [outboundWrites, requestsRead, clientResponses, responsesRead, List.filterMap,
      Event.asReqWrite, Event.asRequestRead, Event.asRespWrite, Event.asResponseRead]
  · intro i req evs e rest1 h
    obtain ⟨a, b, c⟩ := relayOnce_lists_of_eq _ _ _ _ h
    simp only [outboundWrites_append, requestsRead_append, clientResponses_append,
      responsesRead_append, a, b, c]
    simp [outboundWrites, requestsRead, clientResponses, responsesRead, List.filterMap,
      Event.asReqWrite, Event.asRequestRead, Event.asRespWrite, Event.asResponseRead]
  · intro i req evs next rest1 h hne
    obtain ⟨a, b, c⟩ := relayOnce_lists_of_eq _ _ _ _ h
    simp only [outboundWrites_append, requestsRead_append, clientResponses_append,
      responsesRead_append, a, b, c]
    simp [outboundWrites, requestsRead, clientResponses, responsesRead, List.filterMap,
      Event.asReqWrite, Event.asRequestRead, Event.asRespWrite, Event.asResponseRead, hne]
  · intro i req evs next rest1 h heq ih
    obtain ⟨a, b, c⟩ := relayOnce_lists_of_eq _ _ _ _ h
    obtain ⟨ih1, ih2⟩ := ih
    have e1 : outboundWrites (Event.readRequest (Res.ok next)
        :: (plainLoop host io (i + 1) next rest1).1)
        = outboundWrites (plainLoop host io (i + 1) next rest1).1 := by
      simp [outboundWrites, List.filterMap, Event.asReqWrite]
    have e2 : requestsRead (Event.readRequest (Res.ok next)
        :: (plainLoop host io (i + 1) next rest1).1)
        = next :: requestsRead (plainLoop host io (i + 1) next rest1).1 := by
      simp [requestsRead, List.filterMap, Event.asRequestRead]
    have e3 : clientResponses (Event.readRequest (Res.ok next)
        :: (plainLoop host io (i + 1) next rest1).1)
        = clientResponses (plainLoop host io (i + 1) next rest1).1 := by
      simp [clientResponses, List.filterMap, Event.asRespWrite]
    have e4 : responsesRead (Event.readRequest (Res.ok next)
        :: (plainLoop host io (i + 1) next rest1).1)
        = responsesRead (plainLoop host io (i + 1) next rest1).1 := by
      simp [responsesRead, List.filterMap, Event.asResponseRead]
    simp only [outboundWrites_append, requestsRead_append, clientResponses_append,
      responsesRead_append, a, b, c, e1, e2, e3, e4, ih1, ih2]
    simp [heq]

theorem requestWire_prepare (r : Request) (k : String)
    (h1 : k ≠ "Proxy-Connection") (h2 : k ≠ "Proxy-Authenticate")
    (h3 : k ≠ "Proxy-Authorization") (h4 : k ≠ "Connection") (h5 : k ≠ "Host")
    (h6 : k ≠ "User-Agent") (h7 : k ≠ "Content-Length") (h8 : k ≠ "Transfer-Encoding")
    (h9 : k ≠ "Trailer") :
    requestWire (prepareRequest r) k = some ((r.header.values k).getD []) := by
  have hv := (prepareRequest_header r).2.2.2 k h1 h2 h3 (fun _ => h4)
  simp only [requestWire, h4, h5, h6, h7, h8, h9, or_self, if_false, hv]

theorem requestWire_prepare_proxy (r : Request) :
    requestWire (prepareRequest r) "Proxy-Connection" = some []
    ∧ requestWire (prepareRequest r) "Proxy-Authenticate" = some []
    ∧ requestWire (prepareRequest r) "Proxy-Authorization" = some [] := by
  obtain ⟨a, b, c, _⟩ := prepareRequest_header r
  refine ⟨?_, ?_, ?_⟩
  · have e : requestWire (prepareRequest r) "Proxy-Connection"
        = some (((prepareRequest r).header.values "Proxy-Connection").getD []) := by
      simp [requestWire]
    rw [e, a]; rfl
  · have e : requestWire (prepareRequest r) "Proxy-Authenticate"
        = some (((prepareRequest r).header.values "Proxy-Authenticate").getD []) := by
      simp [requestWire]
    rw [e, b]; rfl
  · have e : requestWire (prepareRequest r) "Proxy-Authorization"
        = some (((prepareRequest r).header.values "Proxy-Authorization").getD []) := by
      simp [requestWire]
    rw [e, c]; rfl

theorem requestWire_prepare_userAgent (r : Request)
    (h : r.header.values "User-Agent" = none) :
    requestWire (prepareRequest r) "User-Agent" = some [defaultUserAgent] := by
  have hv := (prepareRequest_header r).2.2.2 "User-Agent" (by decide) (by decide) (by decide)
    (fun _ => by decide)
  have e : requestWire (prepareRequest r) "User-Agent"
      = (match (prepareRequest r).header.values "User-Agent" with
          | none => some [defaultUserAgent]
          | some _ =>
            if (prepareRequest r).header.Get "User-Agent" = "" then some []
            else some [(prepareRequest r).header.Get "User-Agent"]) := by
    simp [requestWire]
  rw [e, hv, h]

theorem responseWire_strip (p : Response) (k : String)
    (h1 : k ≠ "Proxy-Connection") (h2 : k ≠ "Proxy-Authenticate")
    (h3 : k ≠ "Proxy-Authorization") (h4 : k ≠ "Connection")
    (h7 : k ≠ "Content-Length") (h8 : k ≠ "Transfer-Encoding") (h9 : k ≠ "Trailer") :
    responseWire (stripResponse p) k = some ((p.header.values k).getD []) := by
  have hv := (stripResponse_header p).2.2.2 k h1 h2 h3 (fun h => by cases h)
  simp only [responseWire, h4, h7, h8, h9, or_self, if_false, hv]

theorem responseWire_strip_proxy (p : Response) :
    responseWire (stripResponse p) "Proxy-Connection" = some []
    ∧ responseWire (stripResponse p) "Proxy-Authenticate" = some []
    ∧ responseWire (stripResponse p) "Proxy-Authorization" = some [] := by
  obtain ⟨a, b, c, _⟩ := stripResponse_header p
  refine ⟨?_, ?_, ?_⟩
  · have e : responseWire (stripResponse p) "Proxy-Connection"
        = some (((stripResponse p).header.values "Proxy-Connection").getD []) := by
      simp [responseWire]
    rw [e, a]; rfl
  · have e : responseWire (stripResponse p) "Proxy-Authenticate"
        = some (((stripResponse p).header.values "Proxy-Authenticate").getD []) := by
      simp [responseWire]
    rw [e, b]; rfl
  · have e : responseWire (stripResponse p) "Proxy-Authorization"
        = some (((stripResponse p).header.values "Proxy-Authorization").getD []) := by
      simp [responseWire]
    rw [e, c]; rfl

/-- Every iteration of the loop whose request is written without error and whose response
is read starts with the write of the rewritten current request, the read of the response
and the write of the stripped response. -/
theorem plainLoop_exchange_prefix (host : String) (io : Nat → Exchange) (i : Nat)
    (req : Request) (rest : List (Res Request)) (p : Response)
    (h1 : (io i).reqWrite = none) (h2 : (io i).resp = Res.ok p) :
    [Event.reqWrite (prepareRequest req) true, Event.readResponse (Res.ok p),
      Event.respWrite (stripResponse p) (io i).respWrite.isNone]
      <+: (plainLoop host io i req rest).1 := by
  cases h3 : (io i).respWrite with
  | some e =>
    have hr : relayOnce (io i) req
        = ([Event.reqWrite (prepareRequest req) true, Event.readResponse (Res.ok p),
            Event.respWrite (stripResponse p) false], some (some e)) := by
      simp only [relayOnce, h1, h2, h3]
    rw [plainLoop_stop host io i req rest _ _ hr]
    exact List.prefix_refl _
  | none =>
    have hr := relayOnce_ok (io i) req p h1 h2 h3
    rcases ho : (if (stripResponse p).header.Get "Connection" = "close" then some none
        else if (prepareRequest req).header.Get "Connection" ≠ "Keep-Alive"
            ∧ (prepareRequest req).header.Get "Connection" ≠ "keep-alive" then some none
        else none : Option (Option Err)) with _ | r
    · rw [ho] at hr
      cases rest with
      | nil =>
        rw [plainLoop_eof host io i req _ hr]
        exact List.prefix_append _ _
      | cons x rest1 =>
        cases x with
        | error e =>
          rw [plainLoop_error host io i req _ e rest1 hr]
          exact List.prefix_append _ _
        | ok next =>
          by_cases hh : next.host = host
          · rw [plainLoop_same host io i req _ next rest1 hr hh]
            exact List.prefix_append _ _
          · rw [plainLoop_foreign host io i req _ next rest1 hr hh]
            exact List.prefix_append _ _
    · rw [ho] at hr
      rw [plainLoop_stop host io i req rest _ _ hr]
      exact List.prefix_refl _

/-- C3 as stated fails: the client's request carries `Accept` and no `User-Agent`; the
request written to the outbound connection carries the line
`User-Agent: Go-http-client/1.1`, so a header other than `Connection` and the three proxy
headers is not left unchanged. -/
theorem hop_by_hop_stripping_counterexample :
    ¬ (∀ r ∈ outboundWrites (httpHandleClientRequest
          ⟨fun _ => true, none, fun _ => ⟨none, Res.ok ⟨200, ⟨[]⟩, []⟩, none⟩⟩
          [Res.ok ⟨"GET", "a.example", "http", "a.example", "/",
            ⟨[("Accept", ["*/*"])]⟩, []⟩]).1,
        requestWire r "User-Agent"
          = some (((⟨[("Accept", ["*/*"])]⟩ : Header).values "User-Agent").getD [])) := by
  decide

/-- C3 amended. On the plain-HTTP path (the first request is not CONNECT and the outbound
dial succeeds) the requests handed to `req.Write`, in order, are exactly the requests read
with the pinned `Host`, the first included, each rewritten by lines 161-170, and the
responses handed to `resp.Write`, in order, are exactly the responses read, each stripped by
lines 183-185; every iteration of the loop whose request is written without error and
whose response is read starts with these two writes around the read. A rewritten request's
map has none of `Proxy-Connection`,
`Proxy-Authenticate`, `Proxy-Authorization` and every other entry except `Connection` as
read; on the wire the three names are absent, every name other than `Connection` and the
names the serialiser writes by its own rules (`Host`, `User-Agent`, `Content-Length`,
`Transfer-Encoding`, `Trailer`) has the values read, and a `User-Agent` line is added when
the request had none. A stripped response's map has none of the three names and every other
entry as read; on the wire the three names are absent and every name other than
`Connection`, `Content-Length`, `Transfer-Encoding`, `Trailer` has the values read. -/
theorem hop_by_hop_stripping (env : Env) (first : Request) (rest : List (Res Request))
    (hd : env.dial first.host = true) (hm : first.method ≠ "CONNECT") :
    outboundWrites (httpHandleClientRequest env (Res.ok first :: rest)).1
        = ((requestsRead (httpHandleClientRequest env (Res.ok first :: rest)).1).filter
            (fun r => decide (r.host = first.host))).map prepareRequest
    ∧ clientResponses (httpHandleClientRequest env (Res.ok first :: rest)).1
        = (responsesRead (httpHandleClientRequest env (Res.ok first :: rest)).1).map
            stripResponse
    ∧ (∀ (i : Nat) (req : Request) (later : List (Res Request)) (p : Response),
        (env.exchange i).reqWrite = none → (env.exchange i).resp = Res.ok p →
        [Event.reqWrite (prepareRequest req) true, Event.readResponse (Res.ok p),
          Event.respWrite (stripResponse p) (env.exchange i).respWrite.isNone]
          <+: (plainLoop first.host env.exchange i req later).1)
    ∧ (∀ r : Request,
        StrippedFrom true (prepareRequest r).header r.header
        ∧ requestWire (prepareRequest r) "Proxy-Connection" = some []
        ∧ requestWire (prepareRequest r) "Proxy-Authenticate" = some []
        ∧ requestWire (prepareRequest r) "Proxy-Authorization" = some []
        ∧ (∀ k : String, k ≠ "Proxy-Connection" → k ≠ "Proxy-Authenticate" →
            k ≠ "Proxy-Authorization" → k ≠ "Connection" → k ≠ "Host" → k ≠ "User-Agent" →
            k ≠ "Content-Length" → k ≠ "Transfer-Encoding" → k ≠ "Trailer" →
            requestWire (prepareRequest r) k = some ((r.header.values k).getD []))
        ∧ (r.header.values "User-Agent" = none →
            requestWire (prepareRequest r) "User-Agent" = some [defaultUserAgent]))
    ∧ (∀ p : Response,
        StrippedFrom false (stripResponse p).header p.header
        ∧ responseWire (stripResponse p) "Proxy-Connection" = some []
        ∧ responseWire (stripResponse p) "Proxy-Authenticate" = some []
        ∧ responseWire (stripResponse p) "Proxy-Authorization" = some []
        ∧ (∀ k : String, k ≠ "Proxy-Connection" → k ≠ "Proxy-Authenticate" →
            k ≠ "Proxy-Authorization" → k ≠ "Connection" → k ≠ "Content-Length" →
            k ≠ "Transfer-Encoding" → k ≠ "Trailer" →
            responseWire (stripResponse p) k = some ((p.header.values k).getD []))) := by
  have htr : httpHandleClientRequest env (Res.ok first :: rest)
      = ([Event.readRequest (Res.ok first), Event.dial first.host true]
          ++ (plainLoop first.host env.exchange 0 first rest).1 ++ [Event.serverClose],
         (plainLoop first.host env.exchange 0 first rest).2) := by
    simp [httpHandleClientRequest, hd, hm]
  obtain ⟨l1, l2⟩ := plainLoop_lists first.host env.exchange rest 0 first
  refine ⟨?_, ?_, fun i req later p h1 h2 =>
    plainLoop_exchange_prefix first.host env.exchange i req later p h1 h2, ?_, ?_⟩
  · rw [htr]
    simp only [outboundWrites_append, requestsRead_append, l1]
    simp [outboundWrites, requestsRead, List.filterMap, Event.asReqWrite, Event.asRequestRead]
  · rw [htr]
    simp only [clientResponses_append, responsesRead_append, l2]
    simp [clientResponses, responsesRead, List.filterMap, Event.asRespWrite,
      Event.asResponseRead]
  · intro r
    obtain ⟨a, b, c⟩ := requestWire_prepare_proxy r
    exact ⟨prepareRequest_header r, a, b, c, requestWire_prepare r,
      requestWire_prepare_userAgent r⟩
  · intro p
    obtain ⟨a, b, c⟩ := responseWire_strip_proxy p
    exact ⟨stripResponse_header p, a, b, c, responseWire_strip p⟩

/-- Witness for C3: two keep-alive requests to `a.example` and a third to `b.example`; the
two first are written, rewritten, in order, and the third is not. -/
theorem hop_by_hop_stripping_witness :
    outboundWrites (httpHandleClientRequest
        ⟨fun _ => true, none, fun _ => ⟨none, Res.ok ⟨200, ⟨[]⟩, []⟩, none⟩⟩
        [Res.ok ⟨"GET", "a.example", "http", "a.example", "/1",
            ⟨[("Proxy-Connection", ["Keep-Alive"]), ("X-Req", ["one"])]⟩, []⟩,
         Res.ok ⟨"GET", "a.example", "http", "a.example", "/2",
            ⟨[("Connection", ["Keep-Alive"]), ("X-Req", ["two"])]⟩, []⟩,
         Res.ok ⟨"GET", "b.example", "http", "b.example", "/3",
            ⟨[("Connection", ["Keep-Alive"])]⟩, []⟩]).1
      = [⟨"GET", "a.example", "", "", "/1",
            ⟨[("Connection", ["Keep-Alive"]), ("X-Req", ["one"])]⟩, []⟩,
         ⟨"GET", "a.example", "", "", "/2",
            ⟨[("Connection", ["Keep-Alive"]), ("X-Req", ["two"])]⟩, []⟩] :=
  ((hop_by_hop_stripping
      ⟨fun _ => true, none, fun _ => ⟨none, Res.ok ⟨200, ⟨[]⟩, []⟩, none⟩⟩
      ⟨"GET", "a.example", "http", "a.example", "/1",
        ⟨[("Proxy-Connection", ["Keep-Alive"]), ("X-Req", ["one"])]⟩, []⟩
      [Res.ok ⟨"GET", "a.example", "http", "a.example", "/2",
          ⟨[("Connection", ["Keep-Alive"]), ("X-Req", ["two"])]⟩, []⟩,
       Res.ok ⟨"GET", "b.example", "http", "b.example", "/3",
          ⟨[("Connection", ["Keep-Alive"])]⟩, []⟩]
      rfl (by decide)).1).trans (by decide)

end Http



namespace Ssr

theorem getTCPConn_fresh (w : World) (s : Shadowsocksr) (h : s.cache = []) :
    getTCPConn w s
      = ({ s with cache := w.lookupIP s.host },
          Event.lookupIP s.host :: (tcpDial w s.port (w.lookupIP s.host) 0).1,
          (tcpDial w s.port (w.lookupIP s.host) 0).2) := by
  simp [getTCPConn, h, tcpDial]

/-- C10 as stated fails: with the unknown cipher `rot13`, `Conn` on a well-formed address
looks the server name up and connects to `192.0.2.1:8388` before it fails with the
unsupported-cipher error, so the failure does not precede all network operations. -/
theorem unknown_cipher_counterexample :
    ¬ ((Conn sampleWorld
          (NewShadowsocksrClient 1 "ssr.example" "8388" "rot13" "pw" "plain" "" "origin" "").1
          "93.184.216.34:443").2.2 = ConnResult.error "unsupported cipher: rot13"
        ∧ ∀ ev ∈ (Conn sampleWorld
          (NewShadowsocksrClient 1 "ssr.example" "8388" "rot13" "pw" "plain" "" "origin" "").1
          "93.184.216.34:443").2.1, ev.isNetwork = false) := by
  decide

/-- C10 amended. For a dialer configured with a cipher name the registry does not know,
`NewShadowsocksrClient` returns no error; `Conn` on a well-formed target address first
looks the server name up and tries to connect to the addresses found, and only then asks
the cipher registry: when a TCP connection was obtained it fails with the unsupported-cipher
error, and when none was obtained it fails with the dial error without asking the
registry. -/
theorem unknown_cipher (w : World) (authData : Nat)
    (host port method password obfs obfsParam protocol protocolParam addr : String)
    (target : List Nat) (e : Err)
    (hcipher : w.newStreamCipher method password = some e)
    (haddr : w.parseAddr addr = Except.ok target) :
    (NewShadowsocksrClient authData host port method password obfs obfsParam protocol
        protocolParam).2 = none
    ∧ (∀ c, (tcpDial w port (w.lookupIP host) 0).2 = some c →
        (Conn w (NewShadowsocksrClient authData host port method password obfs obfsParam
            protocol protocolParam).1 addr).2
          = (Event.parseAddr addr :: Event.lookupIP host
              :: ((tcpDial w port (w.lookupIP host) 0).1
                  ++ [Event.newStreamCipher method password false]),
             ConnResult.error e))
    ∧ ((tcpDial w port (w.lookupIP host) 0).2 = none →
        (Conn w (NewShadowsocksrClient authData host port method password obfs obfsParam
            protocol protocolParam).1 addr).2
          = (Event.parseAddr addr :: Event.lookupIP host
              :: (tcpDial w port (w.lookupIP host) 0).1,
             ConnResult.error ("[ssr] dial to " ++ host ++ " error: shadowsocks dial failed")))
    := by
  refine ⟨rfl, ?_, ?_⟩
  · intro c hc
    simp [Conn, haddr, NewShadowsocksrClient, getTCPConn_fresh, hc, wrap, hcipher]
  · intro hc
    simp [Conn, haddr, NewShadowsocksrClient, getTCPConn_fresh, hc]

/-- Witness for C10: the unknown cipher `rot13` in the example world, where the connect
succeeds. -/
theorem unknown_cipher_witness :
    (Conn sampleWorld
        (NewShadowsocksrClient 1 "ssr.example" "8388" "rot13" "pw" "plain" "" "origin" "").1
        "93.184.216.34:443").2
      = ([Event.parseAddr "93.184.216.34:443", Event.lookupIP "ssr.example",
          Event.connect "192.0.2.1:8388" true, Event.newStreamCipher "rot13" "pw" false],
         ConnResult.error "unsupported cipher: rot13") :=
  (unknown_cipher sampleWorld 1 "ssr.example" "8388" "rot13" "pw" "plain" "" "origin" ""
    "93.184.216.34:443" [1, 93, 184, 216, 34, 1, 187] "unsupported cipher: rot13"
    (by decide) rfl).2.1 7 (by decide)

/-- A successful first dial in the example world: the empty cache makes the first pass fail
without a connect, the name is looked up, the connect succeeds, the plugins are set up, the
obfuscation state is fetched and kept, and the target address is written. -/
theorem conn_success_example :
    Conn sampleWorld
        (NewShadowsocksrClient 1 "ssr.example" "8388" "aes-256-cfb" "pw" "plain" "" "origin"
          "").1 "93.184.216.34:443"
      = ({ host := "ssr.example", port := "8388", encryptMethod := "aes-256-cfb",
           encryptPassword := "pw", obfs := "plain", obfsParam := "", obfsData := some 2,
           protocol := "origin", protocolParam := "", protocolData := some 1,
           cache := ["192.0.2.1"] },
         [Event.parseAddr "93.184.216.34:443", Event.lookupIP "ssr.example",
          Event.connect "192.0.2.1:8388" true, Event.newStreamCipher "aes-256-cfb" "pw" true,
          Event.newObfs "plain" true, Event.obfsSetServerInfo ⟨"192.0.2.1", 8388, 1460, ""⟩,
          Event.newProtocol "origin" true,
          Event.protocolSetServerInfo ⟨"192.0.2.1", 8388, 1460, ""⟩,
          Event.obfsGetData, Event.obfsSetData (some 2), Event.protocolSetData (some 1),
          Event.write [1, 93, 184, 216, 34, 1, 187] true],
         ConnResult.conn 7) := by
  decide

theorem tcpDial_isPass (w : World) (port : String) :
    ∀ (cache : List String) (k : Nat),
      IsPass w port k cache (tcpDial w port cache k).1 (tcpDial w port cache k).2 := by
  intro cache
  induction cache with
  | nil =>
    intro k
    exact Or.inl ⟨rfl, rfl, fun i a h => by simp at h⟩
  | cons ip ips ih =>
    intro k
    cases hd : w.dial k (joinHostPort ip port) with
    | some c =>
      right
      refine ⟨c, [], ip, ips, ?_, rfl, ?_, fun i a h => by simp at h, ?_⟩
      · simp [tcpDial, hd]
      · simp [tcpDial, hd]
      · simpa using hd
    | none =>
      have e : tcpDial w port (ip :: ips) k
          = (Event.connect (joinHostPort ip port) false :: (tcpDial w port ips (k + 1)).1,
              (tcpDial w port ips (k + 1)).2) := by
        simp [tcpDial, hd]
      rw [e]
      rcases ih (k + 1) with ⟨h1, h2, h3⟩ | ⟨c, pre, a, post, h1, h2, h3, h4, h5⟩
      · left
        refine ⟨h1, by simp [h2], ?_⟩
        intro i b hb
        cases i with
        | zero =>
          simp at hb
          subst hb
          simpa using hd
        | succ j =>
          have := h3 j b (by simpa using hb)
          rw [show k + (j + 1) = k + 1 + j by omega]
          exact this
      · right
        refine ⟨c, ip :: pre, a, post, h1, by simp [h2], by simp [h3], ?_, ?_⟩
        · intro i b hb
          cases i with
          | zero =>
            simp at hb
            subst hb
            simpa using hd
          | succ j =>
            have := h4 j b (by simpa using hb)
            rw [show k + (j + 1) = k + 1 + j by omega]
            exact this
        · rw [show k + (ip :: pre).length = k + 1 + pre.length by simp; omega]
          exact h5

theorem tcpDial_fail_length (w : World) (port : String) (cache : List String) (k : Nat)
    (h : (tcpDial w port cache k).2 = none) : (tcpDial w port cache k).1.length = cache.length := by
  rcases tcpDial_isPass w port cache k with ⟨_, h2, _⟩ | ⟨c, _, _, _, h1, _⟩
  · rw [h2]; simp
  · rw [h] at h1; cases h1

theorem tcpDial_no_lookup (w : World) (port : String) (cache : List String) (k : Nat) :
    (tcpDial w port cache k).1.filter Event.isLookup = [] := by
  rw [List.filter_eq_nil_iff]
  intro e he
  rcases tcpDial_isPass w port cache k with ⟨_, h2, _⟩ | ⟨c, pre, ip, post, _, _, h3, _⟩
  · rw [h2] at he
    simp only [List.mem_map] at he
    obtain ⟨a, _, rfl⟩ := he
    simp [Event.isLookup]
  · rw [h3] at he
    simp only [List.mem_append, List.mem_map, List.mem_singleton] at he
    rcases he with ⟨a, _, rfl⟩ | rfl <;> simp [Event.isLookup]

theorem getTCPConn_hit (w : World) (s : Shadowsocksr) (c : Nat)
    (hc : (tcpDial w s.port s.cache 0).2 = some c) :
    getTCPConn w s = (s, (tcpDial w s.port s.cache 0).1, some c) := by
  simp [getTCPConn, hc]

theorem getTCPConn_miss (w : World) (s : Shadowsocksr)
    (hc : (tcpDial w s.port s.cache 0).2 = none) :
    getTCPConn w s
      = ({ s with cache := w.lookupIP s.host },
         (tcpDial w s.port s.cache 0).1 ++ Event.lookupIP s.host
           :: (tcpDial w s.port (w.lookupIP s.host) s.cache.length).1,
         (tcpDial w s.port (w.lookupIP s.host) s.cache.length).2) := by
  have hl := tcpDial_fail_length w s.port s.cache 0 hc
  simp [getTCPConn, hc, hl]

/-- C13. Single retry with deferred resolution: `getTCPConn` first makes one pass of
`tcpDial` over the cached addresses in cache order, which for an empty cache fails with no
connect; when the pass yields a connection, that connection is returned, the dialer (its
cache included) is unchanged and no lookup is made; otherwise the server name is looked up
exactly once, the cache becomes the lookup result, and one further pass over that result is
made, whose result is returned and after which no further event follows. -/
theorem getTCPConn_single_retry (w : World) (s : Shadowsocksr) :
    IsPass w s.port 0 s.cache (tcpDial w s.port s.cache 0).1 (tcpDial w s.port s.cache 0).2
    ∧ (s.cache = [] → tcpDial w s.port s.cache 0 = ([], none))
    ∧ (∀ c, (tcpDial w s.port s.cache 0).2 = some c →
        getTCPConn w s = (s, (tcpDial w s.port s.cache 0).1, some c)
        ∧ (getTCPConn w s).2.1.filter Event.isLookup = [])
    ∧ ((tcpDial w s.port s.cache 0).2 = none →
        IsPass w s.port s.cache.length (w.lookupIP s.host)
          (tcpDial w s.port (w.lookupIP s.host) s.cache.length).1
          (tcpDial w s.port (w.lookupIP s.host) s.cache.length).2
        ∧ getTCPConn w s
            = ({ s with cache := w.lookupIP s.host },
               (tcpDial w s.port s.cache 0).1 ++ Event.lookupIP s.host
                 :: (tcpDial w s.port (w.lookupIP s.host) s.cache.length).1,
               (tcpDial w s.port (w.lookupIP s.host) s.cache.length).2)
        ∧ (getTCPConn w s).2.1.filter Event.isLookup = [Event.lookupIP s.host]) := by
  refine ⟨tcpDial_isPass w s.port s.cache 0, ?_, ?_, ?_⟩
  · intro h
    rw [h]
    rfl
  · intro c hc
    have e := getTCPConn_hit w s c hc
    refine ⟨e, ?_⟩
    rw [e]
    exact tcpDial_no_lookup w s.port s.cache 0
  · intro hc
    have e := getTCPConn_miss w s hc
    refine ⟨tcpDial_isPass w s.port (w.lookupIP s.host) s.cache.length, e, ?_⟩
    rw [e]
    simp only [List.filter_append, List.filter_cons, tcpDial_no_lookup, Event.isLookup,
      if_true, List.nil_append]

/-- A stale cache: the cached address refuses the connect, the name is looked up, and the
connect to the address found succeeds. -/
theorem getTCPConn_stale_cache_example :
    getTCPConn { sampleWorld with dial := fun k _ => if k = 0 then none else some 7 }
        { (NewShadowsocksrClient 1 "ssr.example" "8388" "aes-256-cfb" "pw" "plain" "" "origin"
            "").1 with cache := ["198.51.100.9"] }
      = ({ (NewShadowsocksrClient 1 "ssr.example" "8388" "aes-256-cfb" "pw" "plain" "" "origin"
            "").1 with cache := ["192.0.2.1"] },
         [Event.connect "198.51.100.9:8388" false, Event.lookupIP "ssr.example",
          Event.connect "192.0.2.1:8388" true],
         some 7) := by
  decide

theorem tcpDial_events (w : World) (port : String) (cache : List String) (k : Nat) :
    ∀ e ∈ (tcpDial w port cache k).1, e.isSessionData = false ∧ e.isClose = false := by
  intro e he
  rcases tcpDial_isPass w port cache k with ⟨_, h2, _⟩ | ⟨c, pre, ip, post, _, _, h3, _⟩
  · rw [h2] at he
    simp only [List.mem_map] at he
    obtain ⟨a, _, rfl⟩ := he
    simp [Event.isSessionData, Event.isClose]
  · rw [h3] at he
    simp only [List.mem_append, List.mem_map, List.mem_singleton] at he
    rcases he with ⟨a, _, rfl⟩ | rfl <;> simp [Event.isSessionData, Event.isClose]

theorem getTCPConn_events (w : World) (s : Shadowsocksr) :
    ∀ e ∈ (getTCPConn w s).2.1, e.isSessionData = false ∧ e.isClose = false := by
  intro e he
  cases hc : (tcpDial w s.port s.cache 0).2 with
  | some c =>
    rw [getTCPConn_hit w s c hc] at he
    exact tcpDial_events w s.port s.cache 0 e he
  | none =>
    rw [getTCPConn_miss w s hc] at he
    simp only [List.mem_append, List.mem_cons] at he
    rcases he with he | rfl | he
    · exact tcpDial_events w s.port s.cache 0 e he
    · simp [Event.isSessionData, Event.isClose]
    · exact tcpDial_events w s.port _ _ e he

theorem getTCPConn_data (w : World) (s : Shadowsocksr) :
    (getTCPConn w s).1.obfsData = s.obfsData
    ∧ (getTCPConn w s).1.protocolData = s.protocolData := by
  cases hc : (tcpDial w s.port s.cache 0).2 with
  | some c => rw [getTCPConn_hit w s c hc]; exact ⟨rfl, rfl⟩
  | none => rw [getTCPConn_miss w s hc]; exact ⟨rfl, rfl⟩

/-- The events of lines 98-106 for a dialer with the given stored session data. -/
theorem attachAndWrite_eq (w : World) (s : Shadowsocksr) (c : Nat) (target : List Nat) :
    attachAndWrite w s c target
      = ({ s with
            obfsData := (match s.obfsData with | none => w.obfsGetData | some d => some d),
            protocolData :=
              (match s.protocolData with | none => w.protocolGetData | some d => some d) },
         (match s.obfsData with | none => [Event.obfsGetData] | some _ => [])
           ++ [Event.obfsSetData
                (match s.obfsData with | none => w.obfsGetData | some d => some d)]
           ++ (match s.protocolData with | none => [Event.protocolGetData] | some _ => [])
           ++ [Event.protocolSetData
                (match s.protocolData with | none => w.protocolGetData | some d => some d)]
           ++ (match w.write with
                | some _ => [Event.write target false, Event.close c]
                | none => [Event.write target true]),
         (match w.write with
           | some e => ConnResult.error e
           | none => ConnResult.conn c)) := by
  obtain ⟨host, port, em, ep, ob, obp, od, pr, prp, pd, cache⟩ := s
  cases od <;> cases pd <;> cases hw : w.write <;> simp [attachAndWrite, hw]

theorem wrap_cases (w : World) (s : Shadowsocksr) (c : Nat) (target : List Nat) :
    ((wrap w s c target).1 = s ∧ (∀ c2, (wrap w s c target).2.2 ≠ ConnResult.conn c2)
      ∧ ∀ e ∈ (wrap w s c target).2.1, e.isSessionData = false ∧ e.isClose = false)
    ∨ (∃ pre, wrap w s c target
          = ((attachAndWrite w s c target).1, pre ++ (attachAndWrite w s c target).2.1,
              (attachAndWrite w s c target).2.2)
        ∧ ∀ e ∈ pre, e.isSessionData = false ∧ e.isClose = false) := by
  cases h1 : w.newStreamCipher s.encryptMethod s.encryptPassword with
  | some e => left; simp [wrap, h1, Event.isSessionData, Event.isClose]
  | none =>
    cases h2 : w.remoteAddr c with
    | none => left; simp [wrap, h1, h2, Event.isSessionData, Event.isClose]
    | some remote =>
      cases h3 : (splitColon remote.data)[1]? with
      | none => left; simp [wrap, h1, h2, h3, Event.isSessionData, Event.isClose]
      | some rs1 =>
        cases h4 : w.newObfs s.obfs with
        | false => left; simp [wrap, h1, h2, h3, h4, Event.isSessionData, Event.isClose]
        | true =>
          cases h5 : w.newProtocol s.protocol with
          | false =>
            left; simp [wrap, h1, h2, h3, h4, h5, Event.isSessionData, Event.isClose]
          | true =>
            right
            refine ⟨[Event.newStreamCipher s.encryptMethod s.encryptPassword true,
              Event.newObfs s.obfs true,
              Event.obfsSetServerInfo
                { host := String.mk ((splitColon remote.data).headD []),
                  port := (w.atoi (String.mk rs1) % 65536).toNat, tcpMss := 1460,
                  param := s.obfsParam },
              Event.newProtocol s.protocol true,
              Event.protocolSetServerInfo
                { host := String.mk ((splitColon remote.data).headD []),
                  port := (w.atoi (String.mk rs1) % 65536).toNat, tcpMss := 1460,
                  param := s.protocolParam }], ?_, ?_⟩
            · simp [wrap, h1, h2, h3, h4, h5]
            · simp [Event.isSessionData, Event.isClose]

/-- The two shapes of a call of `Conn`: it returns before line 98 with an error or a panic,
the session data untouched and no connection closed; or it reaches line 98 with the
connection `c` of `getTCPConn` and ends as `attachAndWrite` does. -/
theorem Conn_cases (w : World) (s : Shadowsocksr) (addr : String) :
    ((Conn w s addr).1.obfsData = s.obfsData ∧ (Conn w s addr).1.protocolData = s.protocolData
      ∧ (∀ c2, (Conn w s addr).2.2 ≠ ConnResult.conn c2)
      ∧ ∀ e ∈ (Conn w s addr).2.1, e.isSessionData = false ∧ e.isClose = false)
    ∨ (∃ c target pre, (getTCPConn w s).2.2 = some c
        ∧ Conn w s addr
            = ((attachAndWrite w (getTCPConn w s).1 c target).1,
               pre ++ (attachAndWrite w (getTCPConn w s).1 c target).2.1,
               (attachAndWrite w (getTCPConn w s).1 c target).2.2)
        ∧ ∀ e ∈ pre, e.isSessionData = false ∧ e.isClose = false) := by
  cases hp : w.parseAddr addr with
  | error e =>
    left
    simp [Conn, hp, Event.isSessionData, Event.isClose]
  | ok target =>
    cases hc : (getTCPConn w s).2.2 with
    | none =>
      left
      have e : Conn w s addr = ((getTCPConn w s).1, Event.parseAddr addr :: (getTCPConn w s).2.1,
          ConnResult.error ("[ssr] dial to " ++ s.host ++ " error: shadowsocks dial failed")) := by
        simp [Conn, hp, hc]
      rw [e]
      refine ⟨(getTCPConn_data w s).1, (getTCPConn_data w s).2, by simp, ?_⟩
      intro ev he
      simp only [List.mem_cons] at he
      rcases he with rfl | he
      · simp [Event.isSessionData, Event.isClose]
      · exact getTCPConn_events w s ev he
    | some c =>
      have e : Conn w s addr = ((wrap w (getTCPConn w s).1 c target).1,
          Event.parseAddr addr :: ((getTCPConn w s).2.1 ++ (wrap w (getTCPConn w s).1 c target).2.1),
          (wrap w (getTCPConn w s).1 c target).2.2) := by
        simp [Conn, hp, hc]
      rcases wrap_cases w (getTCPConn w s).1 c target with ⟨h1, h2, h3⟩ | ⟨pre, h1, h2⟩
      · left
        rw [e]
        refine ⟨?_, ?_, h2, ?_⟩
        · show (wrap w (getTCPConn w s).1 c target).1.obfsData = s.obfsData
          rw [h1]; exact (getTCPConn_data w s).1
        · show (wrap w (getTCPConn w s).1 c target).1.protocolData = s.protocolData
          rw [h1]; exact (getTCPConn_data w s).2
        · intro ev he
          simp only [List.mem_cons, List.mem_append] at he
          rcases he with rfl | he | he
          · simp [Event.isSessionData, Event.isClose]
          · exact getTCPConn_events w s ev he
          · exact h3 ev he
      · right
        refine ⟨c, target, Event.parseAddr addr :: ((getTCPConn w s).2.1 ++ pre), rfl, ?_, ?_⟩
        · rw [e, h1]
          simp
        · intro ev he
          simp only [List.mem_cons, List.mem_append] at he
          rcases he with rfl | he | he
          · simp [Event.isSessionData, Event.isClose]
          · exact getTCPConn_events w s ev he
          · exact h2 ev he

theorem not_mem_of_flag (tr : List Event) (x : Event) (hx : x.isSessionData = true)
    (h : ∀ e ∈ tr, e.isSessionData = false ∧ e.isClose = false) : x ∉ tr := by
  intro hm
  have := (h x hm).1
  rw [hx] at this
  cases this

theorem filter_isClose_nil (tr : List Event)
    (h : ∀ e ∈ tr, e.isSessionData = false ∧ e.isClose = false) :
    tr.filter Event.isClose = [] := by
  rw [List.filter_eq_nil_iff]
  intro e he
  simp [(h e he).2]

/-- The dialer after a call of `Conn` that was entered with both session data stored: the
data are unchanged, `GetData` is not called, and every `SetData` gets the stored value. -/
theorem Conn_keeps (w : World) (s : Shadowsocksr) (addr : String) (d p : Nat)
    (hd : s.obfsData = some d) (hp : s.protocolData = some p) :
    (Conn w s addr).1.obfsData = some d ∧ (Conn w s addr).1.protocolData = some p
    ∧ Event.obfsGetData ∉ (Conn w s addr).2.1 ∧ Event.protocolGetData ∉ (Conn w s addr).2.1
    ∧ (∀ x, Event.obfsSetData x ∈ (Conn w s addr).2.1 → x = some d)
    ∧ (∀ x, Event.protocolSetData x ∈ (Conn w s addr).2.1 → x = some p)
    ∧ (∀ c, (Conn w s addr).2.2 = ConnResult.conn c →
        Event.obfsSetData (some d) ∈ (Conn w s addr).2.1
        ∧ Event.protocolSetData (some p) ∈ (Conn w s addr).2.1) := by
  rcases Conn_cases w s addr with ⟨h1, h2, h3, h4⟩ | ⟨c, target, pre, _, h2, h3⟩
  · refine ⟨h1.trans hd, h2.trans hp, not_mem_of_flag _ _ rfl h4, not_mem_of_flag _ _ rfl h4,
      ?_, ?_, ?_⟩
    · intro x hx
      exact absurd hx (not_mem_of_flag _ _ rfl h4)
    · intro x hx
      exact absurd hx (not_mem_of_flag _ _ rfl h4)
    · intro c hc
      exact absurd hc (h3 c)
  · have gd : (getTCPConn w s).1.obfsData = some d := (getTCPConn_data w s).1.trans hd
    have gp : (getTCPConn w s).1.protocolData = some p := (getTCPConn_data w s).2.trans hp
    have n1 := not_mem_of_flag pre Event.obfsGetData rfl h3
    have n2 := not_mem_of_flag pre Event.protocolGetData rfl h3
    have n3 : ∀ x, Event.obfsSetData x ∉ pre := fun x => not_mem_of_flag pre _ rfl h3
    have n4 : ∀ x, Event.protocolSetData x ∉ pre := fun x => not_mem_of_flag pre _ rfl h3
    rw [h2, attachAndWrite_eq, gd, gp]
    cases hw : w.write <;> simp [n1, n2, n3, n4]

theorem Conn_keeps_protocol (w : World) (s : Shadowsocksr) (addr : String) (p : Nat)
    (hp : s.protocolData = some p) : (Conn w s addr).1.protocolData = some p := by
  rcases Conn_cases w s addr with ⟨_, h2, _, _⟩ | ⟨c, target, pre, _, h2, _⟩
  · exact h2.trans hp
  · have gp : (getTCPConn w s).1.protocolData = some p := (getTCPConn_data w s).2.trans hp
    rw [h2, attachAndWrite_eq, gp]

theorem runConns_keeps_protocol (p : Nat) :
    ∀ (calls : List (World × String)) (s : Shadowsocksr), s.protocolData = some p →
      (runConns s calls).protocolData = some p := by
  intro calls
  induction calls with
  | nil => intro s hp; exact hp
  | cons call calls ih =>
    intro s hp
    exact ih _ (Conn_keeps_protocol call.1 s call.2 p hp)

theorem runConns_keeps (d p : Nat) :
    ∀ (calls : List (World × String)) (s : Shadowsocksr),
      s.obfsData = some d → s.protocolData = some p →
      (runConns s calls).obfsData = some d ∧ (runConns s calls).protocolData = some p := by
  intro calls
  induction calls with
  | nil => intro s hd hp; exact ⟨hd, hp⟩
  | cons call calls ih =>
    intro s hd hp
    have h := Conn_keeps call.1 s call.2 d p hd hp
    exact ih _ h.1 h.2.1

/-- A call of `Conn` that succeeds: the session data afterwards are the stored ones, or what
`GetData` returned where none was stored; both were passed to `SetData`; the connection is
the one `getTCPConn` returned and it has not been closed. -/
theorem Conn_success (w : World) (s : Shadowsocksr) (addr : String) (c : Nat)
    (h : (Conn w s addr).2.2 = ConnResult.conn c) :
    (Conn w s addr).1.obfsData
        = (match s.obfsData with | none => w.obfsGetData | some d => some d)
    ∧ (Conn w s addr).1.protocolData
        = (match s.protocolData with | none => w.protocolGetData | some d => some d)
    ∧ Event.obfsSetData (Conn w s addr).1.obfsData ∈ (Conn w s addr).2.1
    ∧ Event.protocolSetData (Conn w s addr).1.protocolData ∈ (Conn w s addr).2.1
    ∧ (getTCPConn w s).2.2 = some c
    ∧ (Conn w s addr).2.1.filter Event.isClose = [] := by
  rcases Conn_cases w s addr with ⟨_, _, h3, _⟩ | ⟨c1, target, pre, hg, h2, h3⟩
  · exact absurd h (h3 c)
  · have hpre := filter_isClose_nil pre h3
    rw [h2, attachAndWrite_eq] at h ⊢
    rw [(getTCPConn_data w s).1, (getTCPConn_data w s).2] at h ⊢
    cases hw : w.write with
    | some e => simp [hw] at h
    | none =>
      simp only [hw] at h ⊢
      cases h
      refine ⟨trivial, trivial, by simp, by simp, hg, ?_⟩
      simp only [List.filter_append, hpre, List.nil_append]
      cases s.obfsData <;> cases s.protocolData <;> simp [List.filter, Event.isClose]

/-- C11 as stated fails: the obfuscation plugin of `statelessWorld` returns nil from
`GetData`. The first `Conn` succeeds, yet `obfsData` is still nil afterwards, and the next
`Conn` on the same dialer calls the plugin's `GetData` again. -/
theorem session_state_reuse_counterexample :
    ¬ ((Conn statelessWorld
          (NewShadowsocksrClient 1 "ssr.example" "8388" "aes-256-cfb" "pw" "plain" "" "origin"
            "").1 "93.184.216.34:443").2.2 = ConnResult.conn 7 →
        (Conn statelessWorld
          (NewShadowsocksrClient 1 "ssr.example" "8388" "aes-256-cfb" "pw" "plain" "" "origin"
            "").1 "93.184.216.34:443").1.obfsData ≠ none
        ∧ (Conn statelessWorld
          (NewShadowsocksrClient 1 "ssr.example" "8388" "aes-256-cfb" "pw" "plain" "" "origin"
            "").1 "93.184.216.34:443").1.protocolData ≠ none
        ∧ Event.obfsGetData ∉ (Conn statelessWorld
            (Conn statelessWorld
              (NewShadowsocksrClient 1 "ssr.example" "8388" "aes-256-cfb" "pw" "plain" ""
                "origin" "").1 "93.184.216.34:443").1 "93.184.216.34:443").2.1) := by
  decide

/-- C11 amended. Take a dialer made by `NewShadowsocksrClient`, after any earlier calls, and
a call of `Conn` on it that succeeds and in which `obfsData` was already stored or the
obfuscation plugin's `GetData` returned a value that is not nil. Afterwards `obfsData` and
`protocolData` are not nil and are the values that call passed to `SetData`; every later
call of `Conn` on the dialer leaves both fields unchanged, calls neither plugin's
`GetData`, passes only the stored values to `SetData`, and passes both when it succeeds. -/
theorem session_state_reuse (authData : Nat)
    (host port method password obfs obfsParam protocol protocolParam : String)
    (earlier later : List (World × String)) (w w2 : World) (addr addr2 : String) (c : Nat)
    (s s1 s2 : Shadowsocksr)
    (hs : s = runConns (NewShadowsocksrClient authData host port method password obfs obfsParam
        protocol protocolParam).1 earlier)
    (hsucc : (Conn w s addr).2.2 = ConnResult.conn c)
    (hdata : s.obfsData ≠ none ∨ w.obfsGetData ≠ none)
    (hs1 : s1 = (Conn w s addr).1)
    (hs2 : s2 = runConns s1 later) :
    s1.obfsData ≠ none ∧ s1.protocolData ≠ none
    ∧ Event.obfsSetData s1.obfsData ∈ (Conn w s addr).2.1
    ∧ Event.protocolSetData s1.protocolData ∈ (Conn w s addr).2.1
    ∧ s2.obfsData = s1.obfsData ∧ s2.protocolData = s1.protocolData
    ∧ (Conn w2 s2 addr2).1.obfsData = s1.obfsData
    ∧ (Conn w2 s2 addr2).1.protocolData = s1.protocolData
    ∧ Event.obfsGetData ∉ (Conn w2 s2 addr2).2.1
    ∧ Event.protocolGetData ∉ (Conn w2 s2 addr2).2.1
    ∧ (∀ d, Event.obfsSetData d ∈ (Conn w2 s2 addr2).2.1 → d = s1.obfsData)
    ∧ (∀ d, Event.protocolSetData d ∈ (Conn w2 s2 addr2).2.1 → d = s1.protocolData)
    ∧ (∀ c2, (Conn w2 s2 addr2).2.2 = ConnResult.conn c2 →
        Event.obfsSetData s1.obfsData ∈ (Conn w2 s2 addr2).2.1
        ∧ Event.protocolSetData s1.protocolData ∈ (Conn w2 s2 addr2).2.1) := by
  have hp : s.protocolData = some authData := by
    rw [hs]
    exact runConns_keeps_protocol authData earlier _ rfl
  obtain ⟨e1, e2, e3, e4, _, _⟩ := Conn_success w s addr c hsucc
  rw [← hs1] at e1 e2 e3 e4
  have hp1 : s1.protocolData = some authData := by rw [e2, hp]
  obtain ⟨d, hd1⟩ : ∃ d, s1.obfsData = some d := by
    rw [e1]
    cases hod : s.obfsData with
    | some d => exact ⟨d, rfl⟩
    | none =>
      rcases hdata with h | h
      · exact absurd hod h
      · cases hg : w.obfsGetData with
        | none => exact absurd hg h
        | some d => exact ⟨d, rfl⟩
  obtain ⟨k1, k2⟩ := runConns_keeps d authData later s1 hd1 hp1
  rw [← hs2] at k1 k2
  obtain ⟨c1, c2, c3, c4, c5, c6, c7⟩ := Conn_keeps w2 s2 addr2 d authData k1 k2
  rw [hd1, hp1]
  refine ⟨by simp, by simp, ?_, ?_, k1, k2, c1, c2, c3, c4, c5, c6, c7⟩
  · rw [← hd1]; exact e3
  · rw [← hp1]; exact e4

/-- Witness for C11: two successive dials in the example world, whose obfuscation plugin
returns the state `2`; the second dial leaves `obfsData` as the first one stored it. -/
theorem session_state_reuse_witness :
    (Conn sampleWorld
        (Conn sampleWorld
          (NewShadowsocksrClient 1 "ssr.example" "8388" "aes-256-cfb" "pw" "plain" "" "origin"
            "").1 "93.184.216.34:443").1 "example.org:80").1.obfsData
      = (Conn sampleWorld
          (NewShadowsocksrClient 1 "ssr.example" "8388" "aes-256-cfb" "pw" "plain" "" "origin"
            "").1 "93.184.216.34:443").1.obfsData :=
  (session_state_reuse 1 "ssr.example" "8388" "aes-256-cfb" "pw" "plain" "" "origin" "" [] []
    sampleWorld sampleWorld "93.184.216.34:443" "example.org:80" 7 _ _ _ rfl (by decide)
    (Or.inr (by decide)) rfl rfl).2.2.2.2.2.2.1

/-- C12, failing inputs: in the example world `getTCPConn` returns the open connection 7.
With the unknown cipher `rot13`, and likewise with the unknown obfuscation `nope`, `Conn`
returns an error and its trace holds no close: the connection is left open. -/
theorem conn_error_leaves_connection_open :
    (getTCPConn sampleWorld
        (NewShadowsocksrClient 1 "ssr.example" "8388" "rot13" "pw" "plain" "" "origin"
          "").1).2.2 = some 7
    ∧ (Conn sampleWorld
        (NewShadowsocksrClient 1 "ssr.example" "8388" "rot13" "pw" "plain" "" "origin" "").1
        "93.184.216.34:443").2.2 = ConnResult.error "unsupported cipher: rot13"
    ∧ (Conn sampleWorld
        (NewShadowsocksrClient 1 "ssr.example" "8388" "rot13" "pw" "plain" "" "origin" "").1
        "93.184.216.34:443").2.1.filter Event.isClose = []
    ∧ (Conn sampleWorld
        (NewShadowsocksrClient 1 "ssr.example" "8388" "aes-256-cfb" "pw" "nope" "" "origin"
          "").1 "93.184.216.34:443").2.2 = ConnResult.error "[ssr] unsupported obfs type: nope"
    ∧ (Conn sampleWorld
        (NewShadowsocksrClient 1 "ssr.example" "8388" "aes-256-cfb" "pw" "nope" "" "origin"
          "").1 "93.184.216.34:443").2.1.filter Event.isClose = [] := by
  decide

/-- C12, the part that holds, for every call: the trace of `Conn` holds no close at all,
unless the write of the target address failed, in which case the connection of `getTCPConn`
is closed exactly once and the write error is returned. -/
theorem Conn_close_events (w : World) (s : Shadowsocksr) (addr : String) :
    (Conn w s addr).2.1.filter Event.isClose = []
    ∨ (∃ c e, (getTCPConn w s).2.2 = some c ∧ w.write = some e
        ∧ (Conn w s addr).2.2 = ConnResult.error e
        ∧ (Conn w s addr).2.1.filter Event.isClose = [Event.close c]) := by
  rcases Conn_cases w s addr with ⟨_, _, _, h4⟩ | ⟨c, target, pre, hg, h2, h3⟩
  · exact Or.inl (filter_isClose_nil _ h4)
  · have hpre := filter_isClose_nil pre h3
    rw [h2, attachAndWrite_eq]
    cases hw : w.write with
    | none =>
      left
      simp only [List.filter_append, hpre, List.nil_append]
      cases (getTCPConn w s).1.obfsData <;> cases (getTCPConn w s).1.protocolData <;>
        simp [List.filter, Event.isClose]
    | some e =>
      right
      refine ⟨c, e, hg, rfl, rfl, ?_⟩
      simp only [List.filter_append, hpre, List.nil_append]
      cases (getTCPConn w s).1.obfsData <;> cases (getTCPConn w s).1.protocolData <;>
        simp [List.filter, Event.isClose]

theorem getTCPConn_config (w : World) (s : Shadowsocksr) :
    (getTCPConn w s).1.encryptMethod = s.encryptMethod
    ∧ (getTCPConn w s).1.encryptPassword = s.encryptPassword
    ∧ (getTCPConn w s).1.obfs = s.obfs ∧ (getTCPConn w s).1.protocol = s.protocol := by
  cases hc : (tcpDial w s.port s.cache 0).2 with
  | some c => rw [getTCPConn_hit w s c hc]; exact ⟨rfl, rfl, rfl, rfl⟩
  | none => rw [getTCPConn_miss w s hc]; exact ⟨rfl, rfl, rfl, rfl⟩

theorem wrap_early (w : World) (s : Shadowsocksr) (c : Nat) (target : List Nat)
    (hstage : w.newStreamCipher s.encryptMethod s.encryptPassword ≠ none
      ∨ w.remoteAddr c = none ∨ w.newObfs s.obfs = false ∨ w.newProtocol s.protocol = false) :
    (∀ c2, (wrap w s c target).2.2 ≠ ConnResult.conn c2)
    ∧ ∀ e ∈ (wrap w s c target).2.1, e.isSessionData = false ∧ e.isClose = false := by
  cases h1 : w.newStreamCipher s.encryptMethod s.encryptPassword with
  | some e => simp [wrap, h1, Event.isSessionData, Event.isClose]
  | none =>
    cases h2 : w.remoteAddr c with
    | none => simp [wrap, h1, h2, Event.isSessionData, Event.isClose]
    | some remote =>
      cases h3 : (splitColon remote.data)[1]? with
      | none => simp [wrap, h1, h2, h3, Event.isSessionData, Event.isClose]
      | some rs1 =>
        cases h4 : w.newObfs s.obfs with
        | false => simp [wrap, h1, h2, h3, h4, Event.isSessionData, Event.isClose]
        | true =>
          cases h5 : w.newProtocol s.protocol with
          | false => simp [wrap, h1, h2, h3, h4, h5, Event.isSessionData, Event.isClose]
          | true => simp [h1, h2, h4, h5] at hstage

/-- C12, the part that fails, for every call: when `getTCPConn` has returned the connection
`c` and the call then stops at the cipher, at the nil-connection test, at the obfuscation
or at the protocol plugin, `Conn` does not succeed and closes nothing. -/
theorem Conn_early_error_no_close (w : World) (s : Shadowsocksr) (addr : String)
    (target : List Nat) (c : Nat)
    (hp : w.parseAddr addr = Except.ok target) (hc : (getTCPConn w s).2.2 = some c)
    (hstage : w.newStreamCipher s.encryptMethod s.encryptPassword ≠ none
      ∨ w.remoteAddr c = none ∨ w.newObfs s.obfs = false ∨ w.newProtocol s.protocol = false) :
    (∀ c2, (Conn w s addr).2.2 ≠ ConnResult.conn c2)
    ∧ (Conn w s addr).2.1.filter Event.isClose = [] := by
  have e : Conn w s addr = ((wrap w (getTCPConn w s).1 c target).1,
      Event.parseAddr addr :: ((getTCPConn w s).2.1 ++ (wrap w (getTCPConn w s).1 c target).2.1),
      (wrap w (getTCPConn w s).1 c target).2.2) := by
    simp [Conn, hp, hc]
  obtain ⟨g1, g2, g3, g4⟩ := getTCPConn_config w s
  have hw := wrap_early w (getTCPConn w s).1 c target (by rw [g1, g2, g3, g4]; exact hstage)
  rw [e]
  refine ⟨hw.1, filter_isClose_nil _ ?_⟩
  intro ev he
  simp only [List.mem_cons, List.mem_append] at he
  rcases he with rfl | he | he
  · simp [Event.isSessionData, Event.isClose]
  · exact getTCPConn_events w s ev he
  · exact hw.2 ev he

end Ssr
